import Mathlib

/-!
Verification development for the n8n-pdf-service repository.

The definitions below are a shallow embedding of the TypeScript source:

* `UploadProgressService` (src/services/uploadProgressService.ts, first unit):
  the in-memory upload progress tracker.  JavaScript `Map` objects are
  modelled as insertion-ordered association lists; `Map.set` replaces the
  value in place when the key is present and appends otherwise.
* `StorageService` (src/services/storageService.ts, SQLite variant) acting on
  an explicit state `St` holding the four SQLite tables and the filesystem.
  SQLite `TEXT PRIMARY KEY` inserts fail with a uniqueness error on a
  duplicate key; the `ON DELETE CASCADE` declared for `images.originalPdfKey`
  (src/services/databaseService.ts) fires when a `files` row is deleted.
* the in-memory `StorageService` variant (second unit of
  src/services/uploadProgressService.ts) as `Mem*` definitions.
* `PdfService` (src/unnamed/part_003) and `ImageService`
  (second unit of src/types/express/index.d.ts) pipelines, in a small
  state-error monad `M`.  `Date` values are modelled by a `Nat` clock in the
  state that every `new Date()` reads and advances; `uuidv4` key generation
  is modelled by a counter-backed key supply.  Byte sequences, both PDF bytes
  and image bytes, are modelled as `List Nat`; a PDF file's bytes are
  identified with its list of pages, so `PDFDocument.load` is the identity
  and `save` returns the page list itself.
* the Joi request validators (src/utils/validation.ts, third unit of
  src/config/index.ts).

Effects outside the scope of the claims (logging, timers, HTTP) are omitted.
The per-page conversions that the image pipeline launches concurrently and
joins with `Promise.all` are modelled as a left-to-right sequential traversal
that stops at the first failure; no claim below depends on the interleaving.
-/

deriving instance DecidableEq for Except

namespace PdfSvc

/-! ## Data model (src/types/index.ts) -/

/-- The four processing states of `ProcessingStatus.status`. -/
inductive PStatus where
  | pending
  | processing
  | completed
  | error
deriving DecidableEq, Repr

/-- `ProcessingStatus` from src/types/index.ts.  Dates are the `Nat` clock. -/
structure ProcessingStatus where
  status : PStatus
  progress : Option Nat
  error : Option String
  createdAt : Nat
  completedAt : Option Nat
deriving DecidableEq, Repr

/-- A `Partial<ProcessingStatus>` update object: a field is `some` exactly
when the corresponding key is present on the JavaScript object literal. -/
structure StatusPatch where
  status : Option PStatus := none
  progress : Option Nat := none
  error : Option String := none
  createdAt : Option Nat := none
  completedAt : Option Nat := none
deriving DecidableEq, Repr

/-- Key-present-wins choice used by JavaScript object spread. -/
def optOver {α : Type} (u c : Option α) : Option α :=
  match u with
  | some v => some v
  | none => c

/-- `{ ...currentStatus, ...updates }`: keys present on the update override,
all other fields of the current status are kept. -/
def mergeStatus (cur : ProcessingStatus) (u : StatusPatch) : ProcessingStatus :=
  { status := (optOver u.status (some cur.status)).getD cur.status
    progress := optOver u.progress cur.progress
    error := optOver u.error cur.error
    createdAt := (optOver u.createdAt (some cur.createdAt)).getD cur.createdAt
    completedAt := optOver u.completedAt cur.completedAt }

/-- `StoredFile` from src/types/index.ts. -/
structure StoredFile where
  key : String
  originalName : String
  fileName : String
  filePath : String
  size : Nat
  mimeType : String
  createdAt : Nat
deriving DecidableEq, Repr

/-- `StoredImage` as stored in the `images` table
(src/services/databaseService.ts). -/
structure StoredImage where
  key : String
  originalPdfKey : String
  originalName : String
  fileName : String
  filePath : String
  size : Nat
  mimeType : String
  pageNumber : Int
  format : String
  createdAt : Nat
deriving DecidableEq, Repr

/-- `PageRange` from src/types/index.ts; `stop` models the source field
`end` (a Lean keyword), absent means it defaults to the last page. -/
structure PageRange where
  start : Int
  stop : Option Int
deriving DecidableEq, Repr

/-- `TruncationRequest` from src/types/index.ts. -/
structure TruncationRequest where
  pages : Option (List Int)
  pageRange : Option PageRange
deriving DecidableEq, Repr

/-- `ImageConversionRequest`: a truncation selection plus output `format`
and `scale` (the type is referenced by the image service; its fields follow
the Joi schema `imageConversionRequestSchema`). -/
structure ImageConversionRequest where
  pages : Option (List Int) := none
  pageRange : Option PageRange := none
  format : Option String := none
  scale : Option Rat := none
deriving DecidableEq, Repr

/-- `FileKeys` from src/types/index.ts. -/
structure FileKeys where
  originalKey : String
  truncatedKey : String
deriving DecidableEq, Repr

/-- `ImageKeys` returned by `ImageService.processPdfToImages`. -/
structure ImageKeys where
  originalKey : String
  imageKeys : List String
deriving DecidableEq, Repr

/-- Modelled from the spec: src/utils/errors.ts is not part of the snapshot;
its error classes are reconstructed from the spec's taxonomy (section 7) and
from every constructor call visible in the source.  `sqlite` stands for the
`SqliteError` thrown by better-sqlite3 on a constraint violation, and `js`
for a plain JavaScript `Error`. -/
inductive Err where
  | notFound (msg : String)
  | validation (msg : String)
  | processing (msg : String)
  | app (msg : String) (statusCode : Nat) (code : String)
  | sqlite (msg : String)
  | js (msg : String)
deriving DecidableEq, Repr

/-- The `message` property carried by every thrown error. -/
def Err.message : Err → String
  | .notFound m => m
  | .validation m => m
  | .processing m => m
  | .app m _ _ => m
  | .sqlite m => m
  | .js m => m

/-- `true` exactly on a `ValidationError`. -/
def isValidationErr {α : Type} : Except Err α → Bool
  | .error (.validation _) => true
  | _ => false

/-! ## Association-list maps

JavaScript `Map`s and SQLite tables keyed by a `TEXT PRIMARY KEY` are both
modelled as insertion-ordered association lists. -/

/-- `Map.get` / `SELECT ... WHERE key = ?`. -/
def mapGet {α : Type} (m : List (String × α)) (k : String) : Option α :=
  (m.find? (fun e => e.1 == k)).map (fun e => e.2)

/-- `Map.set`: replace in place when present, append otherwise. -/
def mapSet {α : Type} (m : List (String × α)) (k : String) (v : α) :
    List (String × α) :=
  if (m.find? (fun e => e.1 == k)).isSome then
    m.map (fun e => if e.1 == k then (k, v) else e)
  else
    m ++ [(k, v)]

/-- `Map.delete` / `DELETE ... WHERE key = ?`. -/
def mapDelete {α : Type} (m : List (String × α)) (k : String) :
    List (String × α) :=
  m.filter (fun e => !(e.1 == k))

/-! ## Upload Progress Tracker (src/services/uploadProgressService.ts)

The expiry timers only delete entries after an hour of idleness and are not
touched by any claim; they are omitted.  `uuidv4` is modelled by passing the
freshly generated id to `initiateUpload` explicitly. -/

/-- The four states of an upload session. -/
inductive UStatus where
  | pending
  | uploading
  | completed
  | error
deriving DecidableEq, Repr

/-- `UploadProgress` from src/services/uploadProgressService.ts. -/
structure UploadProgress where
  status : UStatus
  total : Nat
  loaded : Nat
  percentage : Nat
  error : Option String := none
deriving DecidableEq, Repr

/-- The tracker's `progressMap`. -/
def TrackerSt : Type := List (String × UploadProgress)

/-- `Math.round((loaded / total) * 100)` on the exact rational value, for
`total > 0`: round half up, which agrees with `Math.round` on non-negative
arguments. -/
def jsPercentage (loaded total : Nat) : Nat :=
  (200 * loaded + total) / (2 * total)

/-- `initiateUpload` registers the fresh id in `pending` state. -/
def initiateUpload (uploadId : String) (m : TrackerSt) : TrackerSt :=
  mapSet m uploadId { status := .pending, total := 0, loaded := 0, percentage := 0 }

/-- `startUpload`: transition to `uploading`; throws a plain `Error` when the
id is unknown. -/
def startUpload (uploadId : String) (totalSize : Nat) (m : TrackerSt) :
    Except Err TrackerSt :=
  if (m.find? (fun e => e.1 == uploadId)).isSome then
    .ok (mapSet m uploadId
      { status := .uploading, total := totalSize, loaded := 0, percentage := 0 })
  else
    .error (Err.js "Upload ID not found")

/-- `updateProgress`: recompute the percentage; a total function that leaves
the map unchanged (and raises nothing) when the id is unknown or the session
is not currently `uploading`. -/
def updateProgress (uploadId : String) (loadedSize : Nat) (m : TrackerSt) :
    TrackerSt :=
  match mapGet m uploadId with
  | some progress =>
    if progress.status == .uploading then
      let percentage := if progress.total > 0 then jsPercentage loadedSize progress.total else 0
      mapSet m uploadId { progress with loaded := loadedSize, percentage := percentage }
    else m
  | none => m

/-- `completeUpload`: mark a registered session completed with
`loaded = total` and `percentage = 100`; no-op when unknown. -/
def completeUpload (uploadId : String) (m : TrackerSt) : TrackerSt :=
  match mapGet m uploadId with
  | some progress =>
    mapSet m uploadId
      { progress with status := .completed, loaded := progress.total, percentage := 100 }
  | none => m

/-- `failUpload`: mark a registered session failed; no-op when unknown. -/
def failUpload (uploadId : String) (e : String) (m : TrackerSt) : TrackerSt :=
  match mapGet m uploadId with
  | some progress =>
    mapSet m uploadId { progress with status := .error, error := some e }
  | none => m

/-- `getProgress`: pure lookup. -/
def getProgress (uploadId : String) (m : TrackerSt) : Option UploadProgress :=
  mapGet m uploadId

/-! ## Combined state of the durable deployment

`disk` is the filesystem path-to-bytes map shared by the upload, processed
and images directories; `files`, `images`, `pdfStatus` and `imgStatus` are
the four SQLite tables of src/services/databaseService.ts; `now` is the
clock read by `new Date()`; `ctr` backs the `uuidv4` key supply. -/
structure St where
  disk : List (String × List Nat)
  files : List StoredFile
  images : List StoredImage
  pdfStatus : List (String × ProcessingStatus)
  imgStatus : List (String × ProcessingStatus)
  now : Nat
  ctr : Nat
deriving DecidableEq, Repr

/-- Content of the file at a path, `none` when the path does not exist. -/
def diskGet (d : List (String × List Nat)) (p : String) : Option (List Nat) :=
  mapGet d p

/-- `FileUtils.fileExists` (fs.access succeeds). -/
def fileExists (s : St) (p : String) : Bool :=
  (diskGet s.disk p).isSome

/-- `fs.writeFile`: create or overwrite. -/
def diskWrite (d : List (String × List Nat)) (p : String) (c : List Nat) :
    List (String × List Nat) :=
  mapSet d p c

/-- `FileUtils.deleteFile` (fs.unlink, ENOENT tolerated): idempotent remove. -/
def diskRemove (d : List (String × List Nat)) (p : String) :
    List (String × List Nat) :=
  mapDelete d p

/-- `SELECT * FROM files WHERE key = ?`. -/
def findFile (s : St) (k : String) : Option StoredFile :=
  s.files.find? (fun f => f.key == k)

/-- `SELECT * FROM images WHERE key = ?`. -/
def findImage (s : St) (k : String) : Option StoredImage :=
  s.images.find? (fun i => i.key == k)

/-- `SELECT * FROM images WHERE originalPdfKey = ?`
(`StorageService.getImagesByOriginalKey`). -/
def imagesByOriginalKey (s : St) (originalKey : String) : List StoredImage :=
  s.images.filter (fun i => i.originalPdfKey == originalKey)

/-- Status-table read, `SELECT * FROM <table> WHERE key = ?`. -/
def tblGet (t : List (String × ProcessingStatus)) (k : String) :
    Option ProcessingStatus :=
  mapGet t k

/-- The upsert of `StorageService.setStatus`: `INSERT ... ON CONFLICT(key) DO
UPDATE SET status, progress, error, completedAt` — on conflict every field of
the new status is written except `createdAt`, which keeps the existing row's
value. -/
def tblUpsert (t : List (String × ProcessingStatus)) (k : String)
    (st : ProcessingStatus) : List (String × ProcessingStatus) :=
  match tblGet t k with
  | none => t ++ [(k, st)]
  | some old =>
    t.map (fun e => if e.1 == k then (k, { st with createdAt := old.createdAt }) else e)

/-- `DELETE FROM <table> WHERE key = ?`. -/
def tblDelete (t : List (String × ProcessingStatus)) (k : String) :
    List (String × ProcessingStatus) :=
  mapDelete t k

/-! ## A state-error monad for the service operations

`M α` threads the state `St` and propagates thrown errors, keeping the state
reached at the point of the throw — exactly the semantics of exceptions over
the mutable stores. -/

/-- State-and-exceptions computation. -/
def M (α : Type) : Type := St → Except Err α × St

/-- Return. -/
def M.pure {α : Type} (a : α) : M α := fun s => (.ok a, s)

/-- Sequencing: a thrown error short-circuits, keeping its state. -/
def M.bind {α β : Type} (x : M α) (f : α → M β) : M β := fun s =>
  match x s with
  | (.ok a, s') => f a s'
  | (.error e, s') => (.error e, s')

instance monadM : Monad M where
  pure := M.pure
  bind := M.bind

/-- `throw`. -/
def M.throw {α : Type} (e : Err) : M α := fun s => (.error e, s)

/-- `try { body } catch (e) { handler }`: the handler starts from the state
at the point of the throw (mutations made before the throw persist). -/
def M.attempt {α : Type} (body : M α) (handler : Err → M α) : M α := fun s =>
  match body s with
  | (.error e, s') => handler e s'
  | r => r

/-- Read the whole state. -/
def getSt : M St := fun s => (.ok s, s)

/-- Replace the whole state. -/
def setSt (s' : St) : M Unit := fun _ => (.ok (), s')

/-- Apply a state update. -/
def modifySt (f : St → St) : M Unit := fun s => (.ok (), f s)

/-- `new Date()`: read the clock and advance it. -/
def getNow : M Nat := fun s => (.ok s.now, { s with now := s.now + 1 })

/-- The key produced by the counter-backed `uuidv4` supply. -/
def keyName (n : Nat) : String := "uuid-" ++ toString n

/-- `FileUtils.generateKey` (uuidv4): draw a fresh key from the supply. -/
def generateKey : M String := fun s =>
  (.ok (keyName s.ctr), { s with ctr := s.ctr + 1 })

/-- Lift a pure `Except` computation (a synchronous call that may throw). -/
def liftExcept {α : Type} (x : Except Err α) : M α := fun s => (x, s)

/-! ## FileUtils path and name helpers (src/utils/fileUtils.ts) -/

/-- `path.join(config.processedDir, filename)` (`FileUtils.getProcessedPath`);
directory names stand in for the configured absolute directories. -/
def getProcessedPath (filename : String) : String := "processed/" ++ filename

/-- `config.imagesDir` (`FileUtils.getImagesDir`). -/
def imagesDirPath : String := "images"

/-- `FileUtils.getTruncatedFileName`: insert `_truncated` between base name
and extension.  `path.extname`/`path.basename` are modelled by splitting on
the last dot; names without a dot get the suffix appended. -/
def getTruncatedFileName (originalName : String) : String :=
  let parts := originalName.splitOn "."
  if parts.length ≤ 1 then
    originalName ++ "_truncated"
  else
    String.intercalate "." parts.dropLast ++ "_truncated." ++ parts.getLastD ""

/-! ## StorageService, SQLite variant (src/services/storageService.ts) -/

/-- `storeFile`: `INSERT INTO files ...`; a duplicate key violates the
`TEXT PRIMARY KEY` constraint and better-sqlite3 throws a `SqliteError`. -/
def storeFile (key originalName fileName filePath : String) (size : Nat)
    (mimeType : String) : M StoredFile := do
  let t ← getNow
  let file : StoredFile :=
    { key := key, originalName := originalName, fileName := fileName
      filePath := filePath, size := size, mimeType := mimeType, createdAt := t }
  let s ← getSt
  if (findFile s key).isSome then
    M.throw (Err.sqlite "UNIQUE constraint failed: files.key")
  else do
    setSt { s with files := s.files ++ [file] }
    pure file

/-- `storeImage`: `INSERT INTO images ...`, same primary-key behaviour. -/
def storeImage (key : String) (image : StoredImage) : M StoredImage := do
  let s ← getSt
  if (findImage s key).isSome then
    M.throw (Err.sqlite "UNIQUE constraint failed: images.key")
  else do
    setSt { s with images := s.images ++ [image] }
    pure image

/-- `getFile`: `NotFound` when no row; when the row's backing file is gone
from disk, delete the stale row and then fail `NotFound`; otherwise return
the row. -/
def getFile (key : String) : M StoredFile := do
  let s ← getSt
  match findFile s key with
  | none => M.throw (Err.notFound ("File with key " ++ key ++ " not found"))
  | some row =>
    if fileExists s row.filePath then
      pure row
    else do
      setSt { s with files := s.files.filter (fun f => !(f.key == key)) }
      M.throw (Err.notFound ("File " ++ key ++ " no longer exists on disk"))

/-- `getImage`: mirror of `getFile` on the `images` table. -/
def getImage (key : String) : M StoredImage := do
  let s ← getSt
  match findImage s key with
  | none => M.throw (Err.notFound ("Image with key " ++ key ++ " not found"))
  | some row =>
    if fileExists s row.filePath then
      pure row
    else do
      setSt { s with images := s.images.filter (fun i => !(i.key == key)) }
      M.throw (Err.notFound ("Image " ++ key ++ " no longer exists on disk"))

/-- `deleteFile`: enumerate the derived images, confirm the document exists,
delete the physical image files and the document's physical file, then the
`files` row (whose `ON DELETE CASCADE` removes the dependent `images` rows)
and both processing-status rows.  A failure inside the try block is re-thrown
as an `AppError` with code `DELETE_ERROR`. -/
def deleteFile (key : String) : M Unit := do
  let s0 ← getSt
  let imagesToDelete := imagesByOriginalKey s0 key
  let file ← getFile key
  M.attempt
    (do
      modifySt (fun s =>
        { s with disk := imagesToDelete.foldl (fun d image => diskRemove d image.filePath) s.disk })
      modifySt (fun s => { s with disk := diskRemove s.disk file.filePath })
      modifySt (fun s =>
        { s with
          files := s.files.filter (fun f => !(f.key == key))
          images := s.images.filter (fun i => !(i.originalPdfKey == key)) })
      modifySt (fun s => { s with pdfStatus := tblDelete s.pdfStatus key })
      modifySt (fun s => { s with imgStatus := tblDelete s.imgStatus key }))
    (fun _ =>
      M.throw (Err.app ("Failed to delete file " ++ key ++ " and its associated assets")
        500 "DELETE_ERROR"))

/-- The two status tables (`pdf_processing_status`, `image_processing_status`). -/
inductive Tbl where
  | pdf
  | img
deriving DecidableEq, Repr

/-- Project out the selected status table. -/
def getTbl (s : St) : Tbl → List (String × ProcessingStatus)
  | .pdf => s.pdfStatus
  | .img => s.imgStatus

/-- Replace the selected status table. -/
def setTbl (s : St) : Tbl → List (String × ProcessingStatus) → St
  | .pdf, t => { s with pdfStatus := t }
  | .img, t => { s with imgStatus := t }

/-- `setStatus`: upsert the full status row into the selected table. -/
def setStatus (tb : Tbl) (key : String) (st : ProcessingStatus) : M Unit :=
  modifySt (fun s => setTbl s tb (tblUpsert (getTbl s tb) key st))

/-- `getStatus`: read the row, `NotFound` when absent. -/
def getStatus (tb : Tbl) (key : String) : M ProcessingStatus := do
  let s ← getSt
  match tblGet (getTbl s tb) key with
  | none => M.throw (Err.notFound ("Processing status for key " ++ key ++ " not found"))
  | some row => pure row

/-- `updateStatus` core shared by both tables: read the current status,
shallow-merge the partial update over it, write the merge back, return it. -/
def updateStatus (tb : Tbl) (key : String) (updates : StatusPatch) :
    M ProcessingStatus := do
  let currentStatus ← getStatus tb key
  let updatedStatus := mergeStatus currentStatus updates
  setStatus tb key updatedStatus
  pure updatedStatus

/-- `setProcessingStatus`. -/
def setProcessingStatus (key : String) (st : ProcessingStatus) : M Unit :=
  setStatus .pdf key st

/-- `getProcessingStatus`. -/
def getProcessingStatus (key : String) : M ProcessingStatus :=
  getStatus .pdf key

/-- `updateProcessingStatus`. -/
def updateProcessingStatus (key : String) (updates : StatusPatch) :
    M ProcessingStatus :=
  updateStatus .pdf key updates

/-- `setImageProcessingStatus`. -/
def setImageProcessingStatus (key : String) (st : ProcessingStatus) : M Unit :=
  setStatus .img key st

/-- `getImageProcessingStatus`. -/
def getImageProcessingStatus (key : String) : M ProcessingStatus :=
  getStatus .img key

/-- `updateImageProcessingStatus`. -/
def updateImageProcessingStatus (key : String) (updates : StatusPatch) :
    M ProcessingStatus :=
  updateStatus .img key updates

/-! ## StorageService, in-memory variant
(second compilation unit of src/services/uploadProgressService.ts) -/

/-- The in-memory variant's two `Map`s. -/
structure MemSt where
  files : List (String × StoredFile)
  processingStatus : List (String × ProcessingStatus)
deriving DecidableEq, Repr

/-- In-memory `storeFile`: `this.files.set(key, file)` — no duplicate-key
check of any kind; an existing row is silently replaced.  `createdAt` is the
caller-visible clock value `t`. -/
def memStoreFile (s : MemSt) (key originalName fileName filePath : String)
    (size : Nat) (mimeType : String) (t : Nat) : StoredFile × MemSt :=
  let file : StoredFile :=
    { key := key, originalName := originalName, fileName := fileName
      filePath := filePath, size := size, mimeType := mimeType, createdAt := t }
  (file, { s with files := mapSet s.files key file })

/-- In-memory `getProcessingStatus`. -/
def memGetProcessingStatus (s : MemSt) (key : String) :
    Except Err ProcessingStatus :=
  match mapGet s.processingStatus key with
  | none => .error (Err.notFound ("Processing status for key " ++ key ++ " not found"))
  | some st => .ok st

/-- In-memory `updateProcessingStatus`: read, shallow-merge, `Map.set`. -/
def memUpdateProcessingStatus (s : MemSt) (key : String) (updates : StatusPatch) :
    Except Err ProcessingStatus × MemSt :=
  match mapGet s.processingStatus key with
  | none => (.error (Err.notFound ("Processing status for key " ++ key ++ " not found")), s)
  | some currentStatus =>
    let updatedStatus := mergeStatus currentStatus updates
    (.ok updatedStatus,
      { s with processingStatus := mapSet s.processingStatus key updatedStatus })

/-! ## PdfService (src/unnamed/part_003) -/

/-- `for (let i = start; i <= stop; i++)` collected into a list; empty when
`stop < start`. -/
def intRangeIncl (start stop : Int) : List Int :=
  (List.range (stop + 1 - start).toNat).map (fun j => start + (j : Int))

/-- `PdfService.getPageIndices`: resolve a selection to 0-based indices.
An explicit list wins over a range (`if (request.pages)` is checked first,
and a present array — even an empty one — is truthy); every explicit page
must lie in `1..totalPages`; a range must have `1 <= start <= totalPages`
and `end <= totalPages`, `end` defaulting to `totalPages`; with neither
selection present the call fails with a `ValidationError`. -/
def pdfGetPageIndices (request : TruncationRequest) (totalPages : Nat) :
    Except Err (List Int) :=
  match request.pages with
  | some pages =>
    let invalidPages := pages.filter (fun page => page < 1 || page > (totalPages : Int))
    if invalidPages.isEmpty then
      .ok (pages.map (fun page => page - 1))
    else
      .error (Err.validation
        ("Invalid page numbers: " ++ String.intercalate ", " (invalidPages.map toString)
          ++ ". PDF has " ++ toString totalPages ++ " pages."))
  | none =>
    match request.pageRange with
    | some r =>
      let e := r.stop.getD (totalPages : Int)
      if r.start < 1 || r.start > (totalPages : Int) then
        .error (Err.validation
          ("Start page " ++ toString r.start ++ " is invalid. PDF has "
            ++ toString totalPages ++ " pages."))
      else if e > (totalPages : Int) then
        .error (Err.validation
          ("End page " ++ toString e ++ " is invalid. PDF has "
            ++ toString totalPages ++ " pages."))
      else
        .ok ((intRangeIncl r.start e).map (fun i => i - 1))
    | none => .error (Err.validation "Either pages or pageRange must be specified")

/-- `fs.readFile` composed with `PDFDocument.load`: PDF bytes are identified
with the page list, so loading returns the stored content; a missing path
rejects like `fs.readFile` with `ENOENT`. -/
def readPdf (p : String) : M (List Nat) := do
  let s ← getSt
  match diskGet s.disk p with
  | none => M.throw (Err.js ("ENOENT: no such file or directory, open " ++ p))
  | some content => pure content

/-- `newPdfDoc.copyPages(pdfDoc, indices)` followed by adding each copied
page in order: the new document holds exactly the selected pages of `doc`
in the given order; pdf-lib throws when an index is out of range. -/
def copyPages (doc : List Nat) (indices : List Int) : Except Err (List Nat) :=
  if indices.all (fun i => decide (0 ≤ i) && decide (i < (doc.length : Int))) then
    .ok (indices.map (fun i => doc.getD i.toNat 0))
  else
    .error (Err.js "Page index out of range")

/-- The part of `PdfService.processPdfTruncation`'s try-block that follows
the initial status write: load the document, resolve the selection, advance
progress, copy the selected pages into a new document, persist and register
it, set status `completed 100`. -/
def truncationAfterStatus (originalKey : String) (request : TruncationRequest) :
    M FileKeys := do
  let originalFile ← getFile originalKey
  let pdfDoc ← readPdf originalFile.filePath
  let totalPages := pdfDoc.length
  let pagesToExtract ← liftExcept (pdfGetPageIndices request totalPages)
  let _ ← updateProcessingStatus originalKey
    { status := some .processing, progress := some 25 }
  let newPdfDoc ← liftExcept (copyPages pdfDoc pagesToExtract)
  let _ ← updateProcessingStatus originalKey
    { status := some .processing, progress := some 75 }
  let truncatedKey ← generateKey
  let truncatedFileName :=
    truncatedKey ++ "_" ++ getTruncatedFileName originalFile.originalName
  let truncatedFilePath := getProcessedPath truncatedFileName
  modifySt (fun s => { s with disk := diskWrite s.disk truncatedFilePath newPdfDoc })
  let _ ← storeFile truncatedKey (getTruncatedFileName originalFile.originalName)
    truncatedFileName truncatedFilePath newPdfDoc.length "application/pdf"
  let t1 ← getNow
  let _ ← updateProcessingStatus originalKey
    { status := some .completed, progress := some 100, completedAt := some t1 }
  pure { originalKey := originalKey, truncatedKey := truncatedKey }

/-- The try-block of `PdfService.processPdfTruncation`: set status
`processing 0`, then run the rest of the pipeline. -/
def processPdfTruncationTry (originalKey : String) (request : TruncationRequest) :
    M FileKeys := do
  let t0 ← getNow
  setProcessingStatus originalKey
    { status := .processing, progress := some 0, error := none
      createdAt := t0, completedAt := none }
  truncationAfterStatus originalKey request

/-- The catch-block of `PdfService.processPdfTruncation`: record the failure
as a terminal `error` status with a completion timestamp, then re-throw. -/
def processPdfTruncationCatch (originalKey : String) (e : Err) : M FileKeys := do
  let t ← getNow
  let _ ← updateProcessingStatus originalKey
    { status := some PStatus.error, error := some e.message, completedAt := some t }
  M.throw e

/-- `PdfService.processPdfTruncation`: the whole pipeline of section 4.3 —
the try-block, with any failure inside it handled by the catch-block. -/
def processPdfTruncation (originalKey : String) (request : TruncationRequest) :
    M FileKeys :=
  M.attempt (processPdfTruncationTry originalKey request)
    (processPdfTruncationCatch originalKey)

/-! ## ImageService (second compilation unit of src/types/express/index.d.ts) -/

/-- `ImageService.getPageIndices`: textually the same rules as
`PdfService.getPageIndices` for an explicit list and for a range, but when
neither selection is present it selects every page `0..totalPages-1` instead
of failing. -/
def imgGetPageIndices (request : ImageConversionRequest) (totalPages : Nat) :
    Except Err (List Int) :=
  match request.pages with
  | some pages =>
    let invalidPages := pages.filter (fun page => page < 1 || page > (totalPages : Int))
    if invalidPages.isEmpty then
      .ok (pages.map (fun page => page - 1))
    else
      .error (Err.validation
        ("Invalid page numbers: " ++ String.intercalate ", " (invalidPages.map toString)
          ++ ". PDF has " ++ toString totalPages ++ " pages."))
  | none =>
    match request.pageRange with
    | some r =>
      let e := r.stop.getD (totalPages : Int)
      if r.start < 1 || r.start > (totalPages : Int) then
        .error (Err.validation
          ("Start page " ++ toString r.start ++ " is invalid. PDF has "
            ++ toString totalPages ++ " pages."))
      else if e > (totalPages : Int) then
        .error (Err.validation
          ("End page " ++ toString e ++ " is invalid. PDF has "
            ++ toString totalPages ++ " pages."))
      else
        .ok ((intRangeIncl r.start e).map (fun i => i - 1))
    | none => .ok ((List.range totalPages).map (fun i => (i : Int)))

/-- `ImageService.getMimeType`. -/
def getMimeType (format : String) : String :=
  if format == "png" then "image/png"
  else if format == "jpeg" || format == "jpg" then "image/jpeg"
  else if format == "tiff" || format == "tif" then "image/tiff"
  else "image/png"

/-- The external Poppler rendering capability (`poppler.pdfToCairo`): from
the source document's bytes, a 1-based page number, a format and the
`scalePageTo` option it either produces the bytes of the rendered page or
fails with a message. -/
def RenderCap : Type :=
  List Nat → Int → String → Nat → Except String (List Nat)

/-- `scalePageTo: request.scale ? Math.round((request.scale || 1) * 1024) :
1024` — a present, non-zero scale is rounded (half up, as `Math.round`)
after multiplying by 1024; an absent or zero (falsy) scale gives 1024. -/
def scalePageToOf (scale : Option Rat) : Nat :=
  match scale with
  | some sc => if sc ≠ 0 then (round (sc * 1024) : Int).toNat else 1024
  | none => 1024

/-- One page's conversion task from `processPdfToImages`: generate a fresh
image key, render the page, write the image file, read its size back and
register the `StoredImage` row; a render failure is wrapped in a
`ProcessingError` naming the page. -/
def convertPage (render : RenderCap) (originalKey : String)
    (srcContent : List Nat) (request : ImageConversionRequest)
    (outputDir : String) (pageIndex : Int) : M String := do
  let pageNumber := pageIndex + 1
  let imageKey ← generateKey
  let fmt := request.format.getD "png"
  let imageFileName := imageKey ++ "_page_" ++ toString pageNumber ++ "." ++ fmt
  let imageFilePath := outputDir ++ "/" ++ imageFileName
  match render srcContent pageNumber fmt (scalePageToOf request.scale) with
  | .error _ =>
    M.throw (Err.processing ("Failed to convert page " ++ toString pageNumber ++ " to image"))
  | .ok bytes => do
    modifySt (fun s => { s with disk := diskWrite s.disk imageFilePath bytes })
    let t ← getNow
    let storedImage : StoredImage :=
      { key := imageKey, originalPdfKey := originalKey
        originalName := "page_" ++ toString pageNumber ++ "." ++ fmt
        fileName := imageFileName, filePath := imageFilePath
        size := bytes.length, mimeType := getMimeType fmt
        pageNumber := pageNumber, format := fmt, createdAt := t }
    let _ ← storeImage imageKey storedImage
    pure imageKey

/-- The part of `ImageService.processPdfToImages`'s try-block that follows
the initial status write: load the document, resolve the pages, advance
progress, convert each resolved page (the source launches these conversion
tasks concurrently and joins them with `Promise.all`; they are traversed
left to right here, the first failing page aborting the traversal), then
set status `completed 100`. -/
def imagesAfterStatus (render : RenderCap) (originalKey : String)
    (request : ImageConversionRequest) : M ImageKeys := do
  let originalFile ← getFile originalKey
  let pdfDoc ← readPdf originalFile.filePath
  let totalPages := pdfDoc.length
  let pagesToConvert ← liftExcept (imgGetPageIndices request totalPages)
  let _ ← updateImageProcessingStatus originalKey
    { status := some .processing, progress := some 25 }
  let outputDir := imagesDirPath
  let _ ← updateImageProcessingStatus originalKey
    { status := some .processing, progress := some 75 }
  let imageKeys ← pagesToConvert.mapM (convertPage render originalKey pdfDoc request outputDir)
  let t1 ← getNow
  let _ ← updateImageProcessingStatus originalKey
    { status := some .completed, progress := some 100, completedAt := some t1 }
  pure { originalKey := originalKey, imageKeys := imageKeys }

/-- The try-block of `ImageService.processPdfToImages`. -/
def processPdfToImagesTry (render : RenderCap) (originalKey : String)
    (request : ImageConversionRequest) : M ImageKeys := do
  let t0 ← getNow
  setImageProcessingStatus originalKey
    { status := .processing, progress := some 0, error := none
      createdAt := t0, completedAt := none }
  imagesAfterStatus render originalKey request

/-- The catch-block of `ImageService.processPdfToImages`: record the failure
as a terminal `error` status with a completion timestamp, then re-throw. -/
def processPdfToImagesCatch (originalKey : String) (e : Err) : M ImageKeys := do
  let t ← getNow
  let _ ← updateImageProcessingStatus originalKey
    { status := some PStatus.error, error := some e.message, completedAt := some t }
  M.throw e

/-- `ImageService.processPdfToImages`: section 4.4's pipeline — the
try-block, with any failure inside it handled by the catch-block. -/
def processPdfToImages (render : RenderCap) (originalKey : String)
    (request : ImageConversionRequest) : M ImageKeys :=
  M.attempt (processPdfToImagesTry render originalKey request)
    (processPdfToImagesCatch originalKey)

/-! ## Joi request validators (src/utils/validation.ts, third compilation
unit of src/config/index.ts) -/

/-- Key-level checks shared by both schemas: a present `pages` must be a
non-empty array of integers each at least 1; a present `pageRange` must have
`start >= 1` and, when given, `end >= start`. -/
def selectionKeysOk (pages : Option (List Int)) (pageRange : Option PageRange) : Bool :=
  (match pages with
   | some ps => !ps.isEmpty && ps.all (fun p => decide (1 ≤ p))
   | none => true) &&
  (match pageRange with
   | some r => decide (1 ≤ r.start) &&
       (match r.stop with
        | some e => decide (r.start ≤ e)
        | none => true)
   | none => true)

/-- `validateTruncationRequest`: Joi schema with `.xor('pages','pageRange')`
— exactly one of the two selectors must be present; a violated dependency or
key constraint yields a `ValidationError`. -/
def validateTruncationRequest (pages : Option (List Int))
    (pageRange : Option PageRange) : Except Err TruncationRequest :=
  if !(selectionKeysOk pages pageRange) then
    .error (Err.validation "invalid pages or pageRange")
  else
    match pages, pageRange with
    | some _, some _ =>
      .error (Err.validation
        "\"value\" contains a conflict between exclusive peers [pages, pageRange]")
    | none, none =>
      .error (Err.validation "\"value\" must contain at least one of [pages, pageRange]")
    | _, _ => .ok { pages := pages, pageRange := pageRange }

/-- `validateImageConversionRequest`: the truncation schema's rules plus
`format` in `{png, jpeg, tiff}` defaulting to `"png"` and `scale` in
`[0.1, 10]` defaulting to `1`; the `.xor('pages','pageRange')` dependency is
unchanged by `.options({ presence: 'optional' })`, which only sets the
default presence of individual keys. -/
def validateImageConversionRequest (pages : Option (List Int))
    (pageRange : Option PageRange) (format : Option String)
    (scale : Option Rat) : Except Err ImageConversionRequest :=
  if !(selectionKeysOk pages pageRange) then
    .error (Err.validation "invalid pages or pageRange")
  else if !(match format with
            | some f => f == "png" || f == "jpeg" || f == "tiff"
            | none => true) then
    .error (Err.validation "\"format\" must be one of [png, jpeg, tiff]")
  else if !(match scale with
            | some sc => decide ((1 : Rat)/10 ≤ sc) && decide (sc ≤ 10)
            | none => true) then
    .error (Err.validation "\"scale\" must be between 0.1 and 10")
  else
    match pages, pageRange with
    | some _, some _ =>
      .error (Err.validation
        "\"value\" contains a conflict between exclusive peers [pages, pageRange]")
    | none, none =>
      .error (Err.validation "\"value\" must contain at least one of [pages, pageRange]")
    | _, _ =>
      .ok { pages := pages, pageRange := pageRange
            format := some (format.getD "png"), scale := some (scale.getD 1) }

/-! ## Basic lemmas about the association-list maps -/

theorem mapGet_mapSet_self {α : Type} (m : List (String × α)) (k : String) (v : α) :
    mapGet (mapSet m k v) k = some v := by
  unfold mapGet mapSet
  by_cases h : (m.find? (fun e => e.1 == k)).isSome
  · rw [if_pos h, List.find?_map]
    have hcomp : ((fun (e : String × α) => e.1 == k) ∘
        fun e => if e.1 == k then (k, v) else e) = fun e => e.1 == k := by
      funext e
      by_cases he : e.1 == k
      · simp [Function.comp, he]
      · simp [Function.comp, he]
    rw [hcomp]
    obtain ⟨a, ha⟩ := Option.isSome_iff_exists.mp h
    have hpa : a.1 = k := by simpa using List.find?_some ha
    rw [ha]
    simp [hpa]
  · rw [if_neg h, List.find?_append]
    rw [Option.not_isSome_iff_eq_none.mp h]
    simp

theorem mapGet_mapDelete_self {α : Type} (m : List (String × α)) (k : String) :
    mapGet (mapDelete m k) k = none := by
  unfold mapGet mapDelete
  rw [List.find?_eq_none.mpr]
  · rfl
  · intro x hx
    have := (List.mem_filter.mp hx).2
    simpa using this

theorem mapGet_isSome_iff_find? {α : Type} (m : List (String × α)) (k : String) :
    (mapGet m k).isSome = (m.find? (fun e => e.1 == k)).isSome := by
  unfold mapGet
  cases m.find? (fun e => e.1 == k) <;> rfl

theorem tblGet_tblUpsert_self (t : List (String × ProcessingStatus)) (k : String)
    (st : ProcessingStatus) :
    tblGet (tblUpsert t k st) k =
      some (match tblGet t k with
            | none => st
            | some old => { st with createdAt := old.createdAt }) := by
  unfold tblUpsert
  cases h : tblGet t k with
  | none =>
    unfold tblGet mapGet at h ⊢
    rw [List.find?_append]
    rw [Option.map_eq_none'.mp h]
    simp
  | some old =>
    unfold tblGet mapGet at h ⊢
    rw [List.find?_map]
    have hcomp : ((fun (e : String × ProcessingStatus) => e.1 == k) ∘
        fun e => if e.1 == k then (k, { st with createdAt := old.createdAt }) else e) =
        fun e => e.1 == k := by
      funext e
      by_cases he : e.1 == k
      · simp [Function.comp, he]
      · simp [Function.comp, he]
    rw [hcomp]
    obtain ⟨a, ha, ha2⟩ := Option.map_eq_some'.mp h
    have hpa : a.1 = k := by simpa using List.find?_some ha
    rw [ha]
    simp [hpa]

theorem tblGet_tblUpsert_isSome (t : List (String × ProcessingStatus)) (k : String)
    (st : ProcessingStatus) : (tblGet (tblUpsert t k st) k).isSome = true := by
  rw [tblGet_tblUpsert_self]
  rfl

theorem tblGet_tblDelete_self (t : List (String × ProcessingStatus)) (k : String) :
    tblGet (tblDelete t k) k = none :=
  mapGet_mapDelete_self t k

/-- Unfolding lemma for the monad's bind. -/
theorem M.bind_def {α β : Type} (x : M α) (f : α → M β) (s : St) :
    (x >>= f) s =
      match x s with
      | (.ok a, s') => f a s'
      | (.error e, s') => (.error e, s') := rfl

/-- Unfolding lemma for the monad's pure. -/
theorem M.pure_def {α : Type} (a : α) (s : St) : (pure a : M α) s = (.ok a, s) := rfl

/-! ## Claim C8: the upload progress tracker -/

/-- C8.  After `initiateUpload` registers a fresh id, `startUpload(id, 1000)`
succeeds and `updateProgress(id, 500)` yields a session in state `uploading`
with `loaded = 500` and `percentage = 50`; `updateProgress` on an id that is
not in the registry, or on a session not in `uploading` state, returns the
registry unchanged (it is a total function: it cannot raise); after
`completeUpload` on any registered session, `loaded = total`,
`percentage = 100` and the status is `completed`. -/
theorem uploadProgress_lifecycle :
    (∀ (m : TrackerSt) (uploadId : String),
      startUpload uploadId 1000 (initiateUpload uploadId m) =
        .ok (mapSet (initiateUpload uploadId m) uploadId
          { status := .uploading, total := 1000, loaded := 0, percentage := 0 }) ∧
      mapGet
        (updateProgress uploadId 500
          (mapSet (initiateUpload uploadId m) uploadId
            { status := .uploading, total := 1000, loaded := 0, percentage := 0 }))
        uploadId =
        some { status := .uploading, total := 1000, loaded := 500, percentage := 50 }) ∧
    (∀ (m : TrackerSt) (uploadId : String) (loadedSize : Nat),
      mapGet m uploadId = none → updateProgress uploadId loadedSize m = m) ∧
    (∀ (m : TrackerSt) (uploadId : String) (loadedSize : Nat) (pr : UploadProgress),
      mapGet m uploadId = some pr → pr.status ≠ .uploading →
      updateProgress uploadId loadedSize m = m) ∧
    (∀ (m : TrackerSt) (uploadId : String) (pr : UploadProgress),
      mapGet m uploadId = some pr →
      mapGet (completeUpload uploadId m) uploadId =
        some { pr with status := .completed, loaded := pr.total, percentage := 100 }) := by
  refine ⟨?_, ?_, ?_, ?_⟩
  · intro m uploadId
    have h1 : mapGet (initiateUpload uploadId m) uploadId =
        some { status := .pending, total := 0, loaded := 0, percentage := 0 } :=
      mapGet_mapSet_self m uploadId _
    have h2 : ((initiateUpload uploadId m).find? (fun e => e.1 == uploadId)).isSome = true := by
      rw [← mapGet_isSome_iff_find?, h1]; rfl
    constructor
    · unfold startUpload
      rw [if_pos h2]
    · have h3 : mapGet (mapSet (initiateUpload uploadId m) uploadId
          { status := .uploading, total := 1000, loaded := 0, percentage := 0 }) uploadId =
          some { status := .uploading, total := 1000, loaded := 0, percentage := 0 } :=
        mapGet_mapSet_self _ uploadId _
      unfold updateProgress
      rw [h3]
      have h4 : jsPercentage 500 1000 = 50 := by decide
      simp only [beq_self_eq_true, if_true, Nat.zero_lt_succ, h4]
      exact mapGet_mapSet_self _ uploadId _
  · intro m uploadId loadedSize h
    unfold updateProgress
    rw [h]
  · intro m uploadId loadedSize pr h hst
    unfold updateProgress
    rw [h]
    have hb : (pr.status == UStatus.uploading) = false := by
      cases hh : pr.status == UStatus.uploading
      · rfl
      · exact absurd (eq_of_beq hh) hst
    simp [hb]
  · intro m uploadId pr h
    unfold completeUpload
    rw [h]
    exact mapGet_mapSet_self m uploadId _

/-- Witness for C8 at concrete inputs. -/
theorem uploadProgress_lifecycle_witness :
    (startUpload "u1" 1000 (initiateUpload "u1" []) =
      .ok (mapSet (initiateUpload "u1" []) "u1"
        { status := .uploading, total := 1000, loaded := 0, percentage := 0 }) ∧
     mapGet
       (updateProgress "u1" 500
         (mapSet (initiateUpload "u1" []) "u1"
           { status := .uploading, total := 1000, loaded := 0, percentage := 0 })) "u1" =
       some { status := .uploading, total := 1000, loaded := 500, percentage := 50 }) ∧
    updateProgress "ghost" 7 [] = [] ∧
    updateProgress "u2" 7 [("u2", { status := .pending, total := 0, loaded := 0, percentage := 0 })] =
      [("u2", { status := .pending, total := 0, loaded := 0, percentage := 0 })] ∧
    mapGet (completeUpload "u2"
        [("u2", { status := .uploading, total := 8, loaded := 3, percentage := 38 })]) "u2" =
      some { status := .completed, total := 8, loaded := 8, percentage := 100 } :=
  ⟨uploadProgress_lifecycle.1 [] "u1",
   uploadProgress_lifecycle.2.1 [] "ghost" 7 (by decide),
   uploadProgress_lifecycle.2.2.1 _ "u2" 7
     { status := .pending, total := 0, loaded := 0, percentage := 0 } (by decide) (by decide),
   uploadProgress_lifecycle.2.2.2 _ "u2"
     { status := .uploading, total := 8, loaded := 3, percentage := 38 } (by decide)⟩

/-! ## Claim C3: `getFile` -/

/-- C3.  `getFile(k)` fails `NotFound` when no `files` row exists for `k`;
when the row exists but its backing file is absent from disk, it deletes the
row as a side effect and then fails `NotFound`; when row and file both
exist, it returns the row and leaves the state unchanged. -/
theorem getFile_spec :
    ∀ (s : St) (k : String),
      (findFile s k = none →
        getFile k s =
          (.error (Err.notFound ("File with key " ++ k ++ " not found")), s)) ∧
      (∀ row, findFile s k = some row → fileExists s row.filePath = false →
        getFile k s =
          (.error (Err.notFound ("File " ++ k ++ " no longer exists on disk")),
            { s with files := s.files.filter (fun f => !(f.key == k)) })) ∧
      (∀ row, findFile s k = some row → fileExists s row.filePath = true →
        getFile k s = (.ok row, s)) := by
  intro s k
  refine ⟨fun h => ?_, fun row h hex => ?_, fun row h hex => ?_⟩
  · simp [getFile, M.bind_def, getSt, h, M.throw]
  · simp [getFile, M.bind_def, getSt, h, hex, M.throw, setSt]
  · simp only [getFile, M.bind_def, getSt, h, hex]
    rfl

/-- A state used by several witnesses: one stored document with key `d`
backed by `up/a.pdf` (3 pages), two derived images, and one row in each
status table. -/
def imgOne : StoredImage :=
  { key := "i1", originalPdfKey := "d", originalName := "page_1.png"
    fileName := "i1_page_1.png", filePath := "images/i1_page_1.png"
    size := 4, mimeType := "image/png", pageNumber := 1, format := "png", createdAt := 1 }

/-- Second derived image of the witness state. -/
def imgTwo : StoredImage :=
  { key := "i2", originalPdfKey := "d", originalName := "page_2.png"
    fileName := "i2_page_2.png", filePath := "images/i2_page_2.png"
    size := 5, mimeType := "image/png", pageNumber := 2, format := "png", createdAt := 2 }

/-- The stored document of the witness state. -/
def docRow : StoredFile :=
  { key := "d", originalName := "a.pdf", fileName := "a.pdf"
    filePath := "up/a.pdf", size := 3, mimeType := "application/pdf", createdAt := 0 }

/-- The witness state itself. -/
def stW : St :=
  { disk := [("up/a.pdf", [10, 20, 30]), ("images/i1_page_1.png", [7, 7, 7, 7]),
             ("images/i2_page_2.png", [8, 8, 8, 8, 8])]
    files := [docRow]
    images := [imgOne, imgTwo]
    pdfStatus := [("d", { status := .completed, progress := some 100, error := none
                          createdAt := 0, completedAt := some 3 })]
    imgStatus := [("d", { status := .completed, progress := some 100, error := none
                          createdAt := 1, completedAt := some 4 })]
    now := 9
    ctr := 0 }

/-- A witness state whose document row points at a path missing from disk. -/
def stStale : St :=
  { disk := []
    files := [docRow]
    images := []
    pdfStatus := []
    imgStatus := []
    now := 0
    ctr := 0 }

/-- Witness for C3: the three cases at concrete states. -/
theorem getFile_spec_witness :
    getFile "ghost" stW =
      (.error (Err.notFound "File with key ghost not found"), stW) ∧
    getFile "d" stStale =
      (.error (Err.notFound "File d no longer exists on disk"),
        { stStale with files := stStale.files.filter (fun f => !(f.key == "d")) }) ∧
    getFile "d" stW = (.ok docRow, stW) :=
  ⟨(getFile_spec stW "ghost").1 (by decide),
   (getFile_spec stStale "d").2.1 docRow (by decide) (by decide),
   (getFile_spec stW "d").2.2 docRow (by decide) (by decide)⟩

/-! ## Claim C2: merge semantics of `updateProcessingStatus` -/

/-- C2.  When the status table already holds a row `st` for `k`, updating
with a patch carrying only `progress := p` writes back a row equal to `st`
except that `progress` becomes `p` — `status`, `error`, `createdAt` and
`completedAt` are preserved — and returns that merged row.  The statement
covers the SQLite variant (whose upsert additionally keeps the stored
`createdAt`) and the in-memory variant. -/
theorem updateProcessingStatus_merge :
    (∀ (s : St) (k : String) (st : ProcessingStatus) (p : Nat),
      tblGet s.pdfStatus k = some st →
      (updateProcessingStatus k { progress := some p } s).1 =
        .ok { st with progress := some p } ∧
      tblGet ((updateProcessingStatus k { progress := some p } s).2).pdfStatus k =
        some { st with progress := some p }) ∧
    (∀ (ms : MemSt) (k : String) (st : ProcessingStatus) (p : Nat),
      mapGet ms.processingStatus k = some st →
      (memUpdateProcessingStatus ms k { progress := some p }).1 =
        .ok { st with progress := some p } ∧
      mapGet ((memUpdateProcessingStatus ms k { progress := some p }).2).processingStatus k =
        some { st with progress := some p }) := by
  constructor
  · intro s k st p h
    have hrun : updateProcessingStatus k { progress := some p } s =
        (.ok { st with progress := some p },
          setTbl s .pdf (tblUpsert s.pdfStatus k { st with progress := some p })) := by
      simp only [updateProcessingStatus, updateStatus, getStatus, setStatus, modifySt,
        M.bind_def, getSt, getTbl, h, mergeStatus, optOver]
      rfl
    refine ⟨by rw [hrun], ?_⟩
    rw [hrun]
    show tblGet (tblUpsert s.pdfStatus k { st with progress := some p }) k = _
    rw [tblGet_tblUpsert_self, h]
  · intro ms k st p h
    unfold memUpdateProcessingStatus
    rw [h]
    refine ⟨by simp [mergeStatus, optOver], ?_⟩
    show mapGet (mapSet ms.processingStatus k _) k = _
    rw [mapGet_mapSet_self]
    simp [mergeStatus, optOver]

/-- Witness for C2 at a concrete state. -/
theorem updateProcessingStatus_merge_witness :
    (updateProcessingStatus "d" { progress := some 50 } stW).1 =
      .ok { status := .completed, progress := some 50, error := none
            createdAt := 0, completedAt := some 3 } ∧
    tblGet ((updateProcessingStatus "d" { progress := some 50 } stW).2).pdfStatus "d" =
      some { status := .completed, progress := some 50, error := none
             createdAt := 0, completedAt := some 3 } ∧
    (memUpdateProcessingStatus
        { files := []
          processingStatus := [("d", { status := .processing, progress := some 10
                                       error := none, createdAt := 4, completedAt := none })] }
        "d" { progress := some 50 }).1 =
      .ok { status := .processing, progress := some 50, error := none
            createdAt := 4, completedAt := none } := by
  have h1 := updateProcessingStatus_merge.1 stW "d"
    { status := .completed, progress := some 100, error := none
      createdAt := 0, completedAt := some 3 } 50 (by decide)
  have h2 := updateProcessingStatus_merge.2
    { files := []
      processingStatus := [("d", { status := .processing, progress := some 10
                                   error := none, createdAt := 4, completedAt := none })] }
    "d"
    { status := .processing, progress := some 10, error := none
      createdAt := 4, completedAt := none } 50 (by decide)
  exact ⟨h1.1, h1.2, h2.1⟩

/-! ## Claim C5: the two page resolvers -/

/-- C5, counterexample.  The two resolvers are not equivalent in rule: on a
request that supplies neither an explicit page list nor a range, the
truncation resolver fails with a `ValidationError` while the image resolver
succeeds and selects every page. -/
theorem resolvers_differ_on_empty_selection :
    pdfGetPageIndices { pages := none, pageRange := none } 2 =
      .error (Err.validation "Either pages or pageRange must be specified") ∧
    imgGetPageIndices { pages := none, pageRange := none } 2 = .ok [0, 1] := by
  constructor
  · rfl
  · rfl

/-- C5, amended.  Whenever the request supplies an explicit page list or a
page range, the image pipeline's resolver computes exactly the same result —
same resolved index list, same failure — as the truncation pipeline's
resolver; the two differ only on a request that supplies neither, where the
truncation resolver fails and the image resolver selects all pages. -/
theorem resolvers_agree_on_present_selection :
    ∀ (pages : Option (List Int)) (pageRange : Option PageRange)
      (format : Option String) (scale : Option Rat) (totalPages : Nat),
      pages.isSome = true ∨ pageRange.isSome = true →
      pdfGetPageIndices { pages := pages, pageRange := pageRange } totalPages =
        imgGetPageIndices
          { pages := pages, pageRange := pageRange, format := format, scale := scale }
          totalPages := by
  intro pages pageRange format scale totalPages h
  cases pages with
  | some ps => rfl
  | none =>
    cases pageRange with
    | some r => rfl
    | none => simp at h

/-- Witness for the amended C5 at concrete selections. -/
theorem resolvers_agree_witness :
    pdfGetPageIndices { pages := some [2, 1], pageRange := none } 3 =
      imgGetPageIndices { pages := some [2, 1], pageRange := none } 3 ∧
    pdfGetPageIndices { pages := none, pageRange := some { start := 2, stop := none } } 3 =
      imgGetPageIndices
        { pages := none, pageRange := some { start := 2, stop := none } } 3 :=
  ⟨resolvers_agree_on_present_selection (some [2, 1]) none none none 3 (Or.inl rfl),
   resolvers_agree_on_present_selection none (some { start := 2, stop := none }) none none 3
     (Or.inr rfl)⟩

/-! ## Claim C10: default page selection and the request validator -/

/-- C10, counterexample.  The image-conversion request validator does not
accept a request that supplies neither `pages` nor `pageRange`: the Joi
schema's `.xor('pages', 'pageRange')` requires exactly one of the two, so
such a request is rejected with a `ValidationError`. -/
theorem imageValidator_rejects_empty_selection :
    validateImageConversionRequest none none none none =
      .error (Err.validation
        "\"value\" must contain at least one of [pages, pageRange]") := by
  rfl

/-- C10, amended.  The image pipeline's resolver itself does not fail on a
request with neither selector: it selects every page `0..N-1` in ascending
order.  The route-level validator however rejects such a request (xor);
when it accepts a request, it defaults `format` to `png` and `scale` to 1. -/
theorem imgResolver_default_all_pages :
    (∀ (totalPages : Nat) (format : Option String) (scale : Option Rat),
      imgGetPageIndices
          { pages := none, pageRange := none, format := format, scale := scale }
          totalPages =
        .ok ((List.range totalPages).map (fun i => (i : Int)))) ∧
    (∀ (format : Option String) (scale : Option Rat),
      isValidationErr (validateImageConversionRequest none none format scale) = true) ∧
    validateImageConversionRequest (some [1]) none none none =
      .ok { pages := some [1], pageRange := none, format := some "png", scale := some 1 } := by
  refine ⟨fun totalPages format scale => rfl, fun format scale => ?_, rfl⟩
  unfold validateImageConversionRequest
  split
  · rfl
  · split
    · rfl
    · split
      · rfl
      · rfl

/-! ## Claim C6: duplicate keys in `storeFile` -/

/-- The pre-existing row of the C6 counterexample state. -/
def oldRow : StoredFile :=
  { key := "d", originalName := "a.pdf", fileName := "a.pdf"
    filePath := "up/a.pdf", size := 1, mimeType := "application/pdf", createdAt := 0 }

/-- The C6 counterexample state for the in-memory variant. -/
def msW : MemSt := { files := [("d", oldRow)], processingStatus := [] }

/-- C6, counterexample.  In the in-memory `StorageService` variant, a second
`storeFile` on a key already present neither fails with any error nor leaves
the existing row unchanged: it succeeds and silently replaces the row. -/
theorem memStoreFile_overwrites :
    (memStoreFile msW "d" "b.pdf" "b.pdf" "up/b.pdf" 2 "application/pdf" 5).1 =
      { key := "d", originalName := "b.pdf", fileName := "b.pdf"
        filePath := "up/b.pdf", size := 2, mimeType := "application/pdf", createdAt := 5 } ∧
    mapGet ((memStoreFile msW "d" "b.pdf" "b.pdf" "up/b.pdf" 2 "application/pdf" 5).2).files
        "d" =
      some { key := "d", originalName := "b.pdf", fileName := "b.pdf"
             filePath := "up/b.pdf", size := 2, mimeType := "application/pdf", createdAt := 5 } ∧
    ({ key := "d", originalName := "b.pdf", fileName := "b.pdf", filePath := "up/b.pdf"
       size := 2, mimeType := "application/pdf", createdAt := 5 } : StoredFile) ≠ oldRow := by
  refine ⟨rfl, ?_, by decide⟩
  show mapGet (mapSet msW.files "d"
    { key := "d", originalName := "b.pdf", fileName := "b.pdf", filePath := "up/b.pdf"
      size := 2, mimeType := "application/pdf", createdAt := 5 }) "d" = _
  exact mapGet_mapSet_self _ "d" _

/-- C6, amended.  In the SQLite variant a second `storeFile` on an existing
key fails — with the primary-key uniqueness violation raised by the
database, not with a typed `Conflict` error — and leaves the `files` table
unchanged; in the in-memory variant a second `storeFile` succeeds and
replaces the existing row. -/
theorem storeFile_duplicate_key :
    (∀ (s : St) (k oname fname fpath : String) (size : Nat) (mime : String),
      (findFile s k).isSome = true →
      (storeFile k oname fname fpath size mime s).1 =
        .error (Err.sqlite "UNIQUE constraint failed: files.key") ∧
      ((storeFile k oname fname fpath size mime s).2).files = s.files) ∧
    (∀ (ms : MemSt) (k oname fname fpath : String) (size : Nat) (mime : String) (t : Nat),
      (memStoreFile ms k oname fname fpath size mime t).1 =
        { key := k, originalName := oname, fileName := fname, filePath := fpath
          size := size, mimeType := mime, createdAt := t } ∧
      mapGet ((memStoreFile ms k oname fname fpath size mime t).2).files k =
        some { key := k, originalName := oname, fileName := fname, filePath := fpath
               size := size, mimeType := mime, createdAt := t }) := by
  constructor
  · intro s k oname fname fpath size mime h
    have hrun : storeFile k oname fname fpath size mime s =
        (.error (Err.sqlite "UNIQUE constraint failed: files.key"),
          { s with now := s.now + 1 }) := by
      simp only [storeFile, M.bind_def, getNow, getSt]
      have : findFile { s with now := s.now + 1 } k = findFile s k := rfl
      simp only [this, h, if_true]
      rfl
    rw [hrun]
    exact ⟨rfl, rfl⟩
  · intro ms k oname fname fpath size mime t
    exact ⟨rfl, mapGet_mapSet_self _ k _⟩

/-- Witness for the amended C6 at concrete inputs. -/
theorem storeFile_duplicate_key_witness :
    (storeFile "d" "b.pdf" "b.pdf" "up/b.pdf" 2 "application/pdf" stW).1 =
      .error (Err.sqlite "UNIQUE constraint failed: files.key") ∧
    ((storeFile "d" "b.pdf" "b.pdf" "up/b.pdf" 2 "application/pdf" stW).2).files =
      stW.files ∧
    mapGet ((memStoreFile msW "x" "c.pdf" "c.pdf" "up/c.pdf" 3 "application/pdf" 6).2).files
        "x" =
      some { key := "x", originalName := "c.pdf", fileName := "c.pdf"
             filePath := "up/c.pdf", size := 3, mimeType := "application/pdf", createdAt := 6 } := by
  have h1 := storeFile_duplicate_key.1 stW "d" "b.pdf" "b.pdf" "up/b.pdf" 2
    "application/pdf" (by decide)
  have h2 := storeFile_duplicate_key.2 msW "x" "c.pdf" "c.pdf" "up/c.pdf" 3
    "application/pdf" 6
  exact ⟨h1.1, h1.2, h2.2⟩

/-! ## Claim C4: both-or-neither selections and status mutation -/

/-- The witness state with empty status tables. -/
def stNoStatus : St := { stW with pdfStatus := [], imgStatus := [] }

/-- C4, counterexample.  Called on a stored document, the truncation
pipeline run that supplies both an explicit page list and a range does not
fail at all (the page list wins), and the run that supplies neither fails
with a `ValidationError` only after mutating the status row for the key:
the status table held no row for `d` before the rejected run and holds a
terminal `error` row afterwards. -/
theorem truncation_status_mutated_on_rejected_run :
    (processPdfTruncation "d"
        { pages := some [1], pageRange := some { start := 1, stop := none } } stNoStatus).1 =
      .ok { originalKey := "d", truncatedKey := "uuid-0" } ∧
    tblGet stNoStatus.pdfStatus "d" = none ∧
    (processPdfTruncation "d" { pages := none, pageRange := none } stNoStatus).1 =
      .error (Err.validation "Either pages or pageRange must be specified") ∧
    tblGet ((processPdfTruncation "d" { pages := none, pageRange := none } stNoStatus).2).pdfStatus
        "d" =
      some { status := .error, progress := some 0
             error := some "Either pages or pageRange must be specified"
             createdAt := 9, completedAt := some 10 } := by
  refine ⟨by decide, by decide, by decide, by decide⟩

/-- C4, amended.  Supplying both a page list and a range, or neither, is
rejected with a `ValidationError` by the route-level Joi validator before
the pipeline (and hence any status mutation) is reached.  The pipeline
itself does not treat "both" as an error — the explicit page list simply
wins and the range is ignored — and on "neither" it fails with a
`ValidationError` only after writing the status row for the key, leaving it
in a terminal `error` state rather than unchanged. -/
theorem truncation_both_neither_validation :
    (∀ (ps : List Int) (r : PageRange),
      isValidationErr (validateTruncationRequest (some ps) (some r)) = true) ∧
    isValidationErr (validateTruncationRequest none none) = true ∧
    (∀ (ps : List Int) (r : PageRange) (totalPages : Nat),
      pdfGetPageIndices { pages := some ps, pageRange := some r } totalPages =
        pdfGetPageIndices { pages := some ps, pageRange := none } totalPages) ∧
    (∀ (s : St) (k : String) (row : StoredFile) (doc : List Nat),
      findFile s k = some row →
      diskGet s.disk row.filePath = some doc →
      (processPdfTruncation k { pages := none, pageRange := none } s).1 =
        .error (Err.validation "Either pages or pageRange must be specified") ∧
      ∃ rst,
        tblGet ((processPdfTruncation k { pages := none, pageRange := none } s).2).pdfStatus
            k =
          some rst ∧
        rst.status = .error ∧
        rst.error = some "Either pages or pageRange must be specified") := by
  refine ⟨?_, ?_, ?_, ?_⟩
  · intro ps r
    unfold validateTruncationRequest
    split
    · rfl
    · rfl
  · rfl
  · intro ps r totalPages
    rfl
  · intro s k row doc h hdoc
    have h' : s.files.find? (fun f => f.key == k) = some row := h
    have hdoc' : mapGet s.disk row.filePath = some doc := hdoc
    simp only [processPdfTruncation, processPdfTruncationTry, processPdfTruncationCatch,
      truncationAfterStatus, M.attempt, monadM, M.bind, M.pure, getNow,
      setProcessingStatus, setStatus, modifySt, getSt, setTbl, getTbl, getFile, readPdf,
      liftExcept, pdfGetPageIndices, updateProcessingStatus, updateStatus, getStatus,
      M.throw, findFile, fileExists, diskGet, h', hdoc', Option.isSome_some, if_true,
      tblGet_tblUpsert_self, mergeStatus, optOver, Err.message]
    refine ⟨trivial, ?_⟩
    exact ⟨_, rfl, rfl, rfl⟩

/-- Witness for the amended C4 at concrete inputs. -/
theorem truncation_both_neither_validation_witness :
    isValidationErr
        (validateTruncationRequest (some [1]) (some { start := 1, stop := none })) = true ∧
    pdfGetPageIndices { pages := some [2], pageRange := some { start := 1, stop := none } } 3 =
      pdfGetPageIndices { pages := some [2], pageRange := none } 3 ∧
    (processPdfTruncation "d" { pages := none, pageRange := none } stW).1 =
      .error (Err.validation "Either pages or pageRange must be specified") ∧
    (tblGet ((processPdfTruncation "d" { pages := none, pageRange := none } stW).2).pdfStatus
        "d").isSome = true := by
  have h4 := truncation_both_neither_validation.2.2.2 stW "d" docRow [10, 20, 30]
    (by decide) (by decide)
  obtain ⟨rst, h1, _h2, _h3⟩ := h4.2
  exact ⟨truncation_both_neither_validation.1 [1] { start := 1, stop := none },
    truncation_both_neither_validation.2.2.1 [2] { start := 1, stop := none } 3,
    h4.1, by rw [h1]; rfl⟩

/-! ## Claim C1: `deleteFile` cascade -/

theorem find?_filter_not_self {α : Type} (l : List α) (f : α → Bool) :
    (l.filter (fun x => !(f x))).find? (fun x => f x) = none := by
  rw [List.find?_eq_none]
  intro x hx
  have hmem := (List.mem_filter.mp hx).2
  simp only [Bool.not_eq_true'] at hmem
  simp [hmem]

theorem filter_filter_not_self {α : Type} (l : List α) (f : α → Bool) :
    (l.filter (fun x => !(f x))).filter (fun x => f x) = [] := by
  rw [List.filter_eq_nil_iff]
  intro x hx
  have hmem := (List.mem_filter.mp hx).2
  simp only [Bool.not_eq_true'] at hmem
  simp [hmem]

theorem diskGet_diskRemove_self (d : List (String × List Nat)) (p : String) :
    diskGet (diskRemove d p) p = none :=
  mapGet_mapDelete_self d p

theorem diskGet_diskRemove_none (d : List (String × List Nat)) (p q : String)
    (h : diskGet d p = none) : diskGet (diskRemove d q) p = none := by
  unfold diskGet mapGet at h
  unfold diskGet diskRemove mapGet mapDelete
  rw [List.find?_eq_none.mpr]
  · rfl
  · intro x hx
    exact List.find?_eq_none.mp (Option.map_eq_none'.mp h) x (List.mem_of_mem_filter hx)

theorem diskGet_foldlRemove_none (l : List StoredImage) (d : List (String × List Nat))
    (p : String) (h : diskGet d p = none) :
    diskGet (l.foldl (fun d image => diskRemove d image.filePath) d) p = none := by
  induction l generalizing d with
  | nil => exact h
  | cons a t ih => exact ih (diskRemove d a.filePath) (diskGet_diskRemove_none d p a.filePath h)

theorem diskGet_foldlRemove_of_mem :
    ∀ (l : List StoredImage) (d : List (String × List Nat)) (img : StoredImage),
      img ∈ l →
      diskGet (l.foldl (fun d image => diskRemove d image.filePath) d) img.filePath = none := by
  intro l
  induction l with
  | nil => intro d img h; cases h
  | cons a t ih =>
    intro d img h
    rcases List.mem_cons.mp h with rfl | hmem
    · exact diskGet_foldlRemove_none t (diskRemove d img.filePath) img.filePath
        (diskGet_diskRemove_self d img.filePath)
    · exact ih (diskRemove d a.filePath) img hmem

/-- C1.  When `deleteFile(k)` succeeds on a state whose image keys are
unique (the `images` primary key), it removes every derived image's physical
file, the document's physical file, the document row (the foreign-key
cascade removing every image row whose parent is `k`), and both
processing-status rows for `k`; afterwards `getFile(k)` fails `NotFound`,
and `getImage` fails `NotFound` on each of the derived images' keys. -/
theorem deleteFile_cascades (s : St) (k : String) (s' : St)
    (hnodup : (s.images.map (fun i => i.key)).Nodup)
    (hrun : deleteFile k s = (.ok (), s')) :
    (∀ img ∈ imagesByOriginalKey s k, fileExists s' img.filePath = false) ∧
    (∃ doc, findFile s k = some doc ∧ fileExists s' doc.filePath = false) ∧
    findFile s' k = none ∧
    imagesByOriginalKey s' k = [] ∧
    (∀ img ∈ imagesByOriginalKey s k, findImage s' img.key = none) ∧
    tblGet s'.pdfStatus k = none ∧
    tblGet s'.imgStatus k = none ∧
    (getFile k s').1 =
      .error (Err.notFound ("File with key " ++ k ++ " not found")) ∧
    (∀ img ∈ imagesByOriginalKey s k,
      (getImage img.key s').1 =
        .error (Err.notFound ("Image with key " ++ img.key ++ " not found"))) := by
  cases hf : findFile s k with
  | none =>
    exfalso
    have hf' : s.files.find? (fun f => f.key == k) = none := hf
    have : deleteFile k s =
        (.error (Err.notFound ("File with key " ++ k ++ " not found")), s) := by
      simp only [deleteFile, monadM, M.bind, M.pure, M.attempt, getSt, getFile, modifySt,
        M.throw, findFile, hf']
    rw [this] at hrun
    exact absurd (congrArg Prod.fst hrun) (by simp)
  | some row =>
    have hf' : s.files.find? (fun f => f.key == k) = some row := hf
    cases hex : fileExists s row.filePath with
    | false =>
      exfalso
      have hex' : (mapGet s.disk row.filePath).isSome = false := hex
      have : deleteFile k s =
          (.error (Err.notFound ("File " ++ k ++ " no longer exists on disk")),
            { s with files := s.files.filter (fun f => !(f.key == k)) }) := by
        simp only [deleteFile, monadM, M.bind, M.pure, M.attempt, getSt, getFile, modifySt,
          M.throw, setSt, findFile, fileExists, diskGet, hf', hex', Bool.false_eq_true,
          if_false]
      rw [this] at hrun
      exact absurd (congrArg Prod.fst hrun) (by simp)
    | true =>
      have hex' : (mapGet s.disk row.filePath).isSome = true := hex
      have hrun2 : deleteFile k s =
          (.ok (),
            { disk := diskRemove
                ((imagesByOriginalKey s k).foldl
                  (fun d image => diskRemove d image.filePath) s.disk) row.filePath
              files := s.files.filter (fun f => !(f.key == k))
              images := s.images.filter (fun i => !(i.originalPdfKey == k))
              pdfStatus := tblDelete s.pdfStatus k
              imgStatus := tblDelete s.imgStatus k
              now := s.now
              ctr := s.ctr }) := by
        simp only [deleteFile, monadM, M.bind, M.pure, M.attempt, getSt, getFile, modifySt,
          M.throw, setSt, findFile, fileExists, diskGet, hf', hex', if_true,
          imagesByOriginalKey]
      rw [hrun2] at hrun
      have hs' : s' =
          { disk := diskRemove
              ((imagesByOriginalKey s k).foldl
                (fun d image => diskRemove d image.filePath) s.disk) row.filePath
            files := s.files.filter (fun f => !(f.key == k))
            images := s.images.filter (fun i => !(i.originalPdfKey == k))
            pdfStatus := tblDelete s.pdfStatus k
            imgStatus := tblDelete s.imgStatus k
            now := s.now
            ctr := s.ctr } := by
        have := congrArg Prod.snd hrun
        simpa using this.symm
      subst hs'
      refine ⟨?_, ⟨row, rfl, ?_⟩, ?_, ?_, ?_, ?_, ?_, ?_, ?_⟩
      · intro img hmem
        show (diskGet _ img.filePath).isSome = false
        rw [diskGet_diskRemove_none _ _ _
          (diskGet_foldlRemove_of_mem (imagesByOriginalKey s k) s.disk img hmem)]
        rfl
      · show (diskGet _ row.filePath).isSome = false
        rw [diskGet_diskRemove_self]
        rfl
      · exact find?_filter_not_self s.files (fun f => f.key == k)
      · exact filter_filter_not_self s.images (fun i => i.originalPdfKey == k)
      · intro img hmem
        have himg : img ∈ s.images := List.mem_of_mem_filter hmem
        have hpar : (img.originalPdfKey == k) = true := (List.mem_filter.mp hmem).2
        show List.find? (fun i : StoredImage => i.key == img.key)
          (s.images.filter (fun i => !(i.originalPdfKey == k))) = none
        rw [List.find?_eq_none]
        intro y hy
        have hys : y ∈ s.images := List.mem_of_mem_filter hy
        have hynk : (y.originalPdfKey == k) = false := by
          have := (List.mem_filter.mp hy).2
          simpa using this
        intro hkey
        have : y = img :=
          List.inj_on_of_nodup_map hnodup hys himg (by simpa using hkey)
        rw [this, hpar] at hynk
        cases hynk
      · exact tblGet_tblDelete_self s.pdfStatus k
      · exact tblGet_tblDelete_self s.imgStatus k
      · have hnone : List.find? (fun f => f.key == k)
            (s.files.filter (fun f => !(f.key == k))) = none :=
          find?_filter_not_self s.files (fun f => f.key == k)
        simp only [getFile, monadM, M.bind, M.pure, getSt, M.throw, findFile, hnone]
      · intro img hmem
        have himg : img ∈ s.images := List.mem_of_mem_filter hmem
        have hpar : (img.originalPdfKey == k) = true := (List.mem_filter.mp hmem).2
        have hnone : List.find? (fun i => i.key == img.key)
            (s.images.filter (fun i => !(i.originalPdfKey == k))) = none := by
          rw [List.find?_eq_none]
          intro y hy
          have hys : y ∈ s.images := List.mem_of_mem_filter hy
          have hynk : (y.originalPdfKey == k) = false := by
            have := (List.mem_filter.mp hy).2
            simpa using this
          intro hkey
          have : y = img :=
            List.inj_on_of_nodup_map hnodup hys himg (by simpa using hkey)
          rw [this, hpar] at hynk
          cases hynk
        simp only [getImage, monadM, M.bind, M.pure, getSt, M.throw, findImage, hnone]

/-- Witness for C1: deleting document `d` of the concrete state `stW` with
its two derived images. -/
theorem deleteFile_cascades_witness :
    fileExists ((deleteFile "d" stW).2) imgOne.filePath = false ∧
    fileExists ((deleteFile "d" stW).2) imgTwo.filePath = false ∧
    fileExists ((deleteFile "d" stW).2) docRow.filePath = false ∧
    findFile ((deleteFile "d" stW).2) "d" = none ∧
    imagesByOriginalKey ((deleteFile "d" stW).2) "d" = [] ∧
    findImage ((deleteFile "d" stW).2) imgOne.key = none ∧
    findImage ((deleteFile "d" stW).2) imgTwo.key = none ∧
    tblGet ((deleteFile "d" stW).2).pdfStatus "d" = none ∧
    tblGet ((deleteFile "d" stW).2).imgStatus "d" = none ∧
    (getFile "d" ((deleteFile "d" stW).2)).1 =
      .error (Err.notFound "File with key d not found") ∧
    (getImage imgOne.key ((deleteFile "d" stW).2)).1 =
      .error (Err.notFound "Image with key i1 not found") := by
  have h1 : (deleteFile "d" stW).1 = Except.ok () := by decide
  have hrun : deleteFile "d" stW = (Except.ok (), (deleteFile "d" stW).2) := by
    rw [← h1]
  have H := deleteFile_cascades stW "d" (deleteFile "d" stW).2 (by decide) hrun
  obtain ⟨hA, ⟨doc, hdoc, hB⟩, hC, hD, hE, hF, hG, hH, hI⟩ := H
  have hdoc' : doc = docRow := by
    have : findFile stW "d" = some docRow := by decide
    rw [this] at hdoc
    exact (Option.some.inj hdoc).symm
  subst hdoc'
  exact ⟨hA imgOne (by decide), hA imgTwo (by decide), hB, hC, hD,
    hE imgOne (by decide), hE imgTwo (by decide), hF, hG, hH, hI imgOne (by decide)⟩

/-! ## Claim C9: truncation with a valid explicit page list -/

theorem diskGet_diskWrite_self (d : List (String × List Nat)) (p : String) (c : List Nat) :
    diskGet (diskWrite d p c) p = some c :=
  mapGet_mapSet_self d p c

/-- C9.  For a valid explicit page list `P` (every element in
`1..totalPages`), the truncation pipeline resolves `P` to the 0-based list
`map (p => p-1) P` in `P`'s order, the run succeeds, and the persisted new
document consists of exactly the selected pages of the source document in
`P`'s order (duplicates included), so its page count is `|P|`.  The key of
the new document is the next key of the supply, assumed fresh as `uuidv4`
keys are. -/
theorem truncation_explicit_pages (s : St) (k : String) (P : List Int)
    (pr : Option PageRange) (row : StoredFile) (doc : List Nat)
    (hrow : findFile s k = some row)
    (hdoc : diskGet s.disk row.filePath = some doc)
    (hP : ∀ p ∈ P, 1 ≤ p ∧ p ≤ (doc.length : Int))
    (hfresh : findFile s (keyName s.ctr) = none) :
    pdfGetPageIndices { pages := some P, pageRange := pr } doc.length =
      .ok (P.map (fun p => p - 1)) ∧
    (processPdfTruncation k { pages := some P, pageRange := pr } s).1 =
      .ok { originalKey := k, truncatedKey := keyName s.ctr } ∧
    findFile ((processPdfTruncation k { pages := some P, pageRange := pr } s).2)
        (keyName s.ctr) =
      some { key := keyName s.ctr
             originalName := getTruncatedFileName row.originalName
             fileName := keyName s.ctr ++ "_" ++ getTruncatedFileName row.originalName
             filePath := getProcessedPath
               (keyName s.ctr ++ "_" ++ getTruncatedFileName row.originalName)
             size := (P.map (fun p => doc.getD (p - 1).toNat 0)).length
             mimeType := "application/pdf"
             createdAt := s.now + 1 } ∧
    diskGet ((processPdfTruncation k { pages := some P, pageRange := pr } s).2).disk
        (getProcessedPath (keyName s.ctr ++ "_" ++ getTruncatedFileName row.originalName)) =
      some (P.map (fun p => doc.getD (p - 1).toNat 0)) ∧
    (P.map (fun p => doc.getD (p - 1).toNat 0)).length = P.length := by
  have hrow' : s.files.find? (fun f => f.key == k) = some row := hrow
  have hdoc' : mapGet s.disk row.filePath = some doc := hdoc
  have hfresh' : s.files.find? (fun f => f.key == keyName s.ctr) = none := hfresh
  have hfilter : P.filter (fun page => page < 1 || page > (doc.length : Int)) = [] := by
    rw [List.filter_eq_nil_iff]
    intro p hp
    obtain ⟨h1, h2⟩ := hP p hp
    simp only [Bool.or_eq_true, decide_eq_true_eq, not_or]
    omega
  have hres : pdfGetPageIndices { pages := some P, pageRange := pr } doc.length =
      .ok (P.map (fun p => p - 1)) := by
    simp only [pdfGetPageIndices, hfilter, List.isEmpty_nil, if_true]
  have hall : (P.map (fun p => p - 1)).all
      (fun i => decide (0 ≤ i) && decide (i < (doc.length : Int))) = true := by
    rw [List.all_eq_true]
    intro i hi
    obtain ⟨p, hp, rfl⟩ := List.mem_map.mp hi
    obtain ⟨h1, h2⟩ := hP p hp
    simp only [Bool.and_eq_true, decide_eq_true_eq]
    omega
  have hcopy : copyPages doc (P.map (fun p => p - 1)) =
      .ok (P.map (fun p => doc.getD (p - 1).toNat 0)) := by
    simp only [copyPages, hall, if_true, List.map_map]
    rfl
  refine ⟨hres, ?_, ?_, ?_, List.length_map P _⟩
  · simp only [processPdfTruncation, processPdfTruncationTry, processPdfTruncationCatch,
      truncationAfterStatus, M.attempt, monadM, M.bind, M.pure, getNow,
      setProcessingStatus, setStatus, modifySt, getSt, setSt, setTbl, getTbl, getFile,
      readPdf, liftExcept, updateProcessingStatus, updateStatus, getStatus, M.throw,
      findFile, fileExists, diskGet, generateKey, storeFile, diskWrite,
      hrow', hdoc', hres, hcopy, hfresh', Option.isSome_some, Option.isSome_none,
      if_true, Bool.false_eq_true, if_false, tblGet_tblUpsert_self]
  · simp only [processPdfTruncation, processPdfTruncationTry, processPdfTruncationCatch,
      truncationAfterStatus, M.attempt, monadM, M.bind, M.pure, getNow,
      setProcessingStatus, setStatus, modifySt, getSt, setSt, setTbl, getTbl, getFile,
      readPdf, liftExcept, updateProcessingStatus, updateStatus, getStatus, M.throw,
      findFile, fileExists, diskGet, generateKey, storeFile, diskWrite,
      hrow', hdoc', hres, hcopy, hfresh', Option.isSome_some, Option.isSome_none,
      if_true, Bool.false_eq_true, if_false, tblGet_tblUpsert_self]
    rw [List.find?_append, hfresh']
    simp
  · simp only [processPdfTruncation, processPdfTruncationTry, processPdfTruncationCatch,
      truncationAfterStatus, M.attempt, monadM, M.bind, M.pure, getNow,
      setProcessingStatus, setStatus, modifySt, getSt, setSt, setTbl, getTbl, getFile,
      readPdf, liftExcept, updateProcessingStatus, updateStatus, getStatus, M.throw,
      findFile, fileExists, diskGet, generateKey, storeFile,
      hrow', hdoc', hres, hcopy, hfresh', Option.isSome_some, Option.isSome_none,
      if_true, Bool.false_eq_true, if_false, tblGet_tblUpsert_self]
    exact diskGet_diskWrite_self s.disk _ _

/-- Witness for C9: truncating `d` of `stW` to pages `[2, 1, 2]` produces a
3-page document holding pages 2, 1, 2 of the source, in that order. -/
theorem truncation_explicit_pages_witness :
    pdfGetPageIndices { pages := some [2, 1, 2], pageRange := none }
        ([10, 20, 30] : List Nat).length =
      .ok (List.map (fun p => p - 1) [2, 1, 2]) ∧
    (processPdfTruncation "d" { pages := some [2, 1, 2], pageRange := none } stW).1 =
      .ok { originalKey := "d", truncatedKey := keyName stW.ctr } ∧
    findFile
        ((processPdfTruncation "d" { pages := some [2, 1, 2], pageRange := none } stW).2)
        (keyName stW.ctr) =
      some { key := keyName stW.ctr
             originalName := getTruncatedFileName docRow.originalName
             fileName := keyName stW.ctr ++ "_" ++ getTruncatedFileName docRow.originalName
             filePath := getProcessedPath
               (keyName stW.ctr ++ "_" ++ getTruncatedFileName docRow.originalName)
             size := (List.map (fun p : Int => ([10, 20, 30] : List Nat).getD (p - 1).toNat 0)
               ([2, 1, 2] : List Int)).length
             mimeType := "application/pdf", createdAt := stW.now + 1 } ∧
    diskGet
        ((processPdfTruncation "d" { pages := some [2, 1, 2], pageRange := none } stW).2).disk
        (getProcessedPath (keyName stW.ctr ++ "_" ++ getTruncatedFileName docRow.originalName)) =
      some (List.map (fun p : Int => ([10, 20, 30] : List Nat).getD (p - 1).toNat 0)
        ([2, 1, 2] : List Int)) ∧
    (List.map (fun p : Int => ([10, 20, 30] : List Nat).getD (p - 1).toNat 0)
        ([2, 1, 2] : List Int)).length =
      ([2, 1, 2] : List Int).length :=
  truncation_explicit_pages stW "d" [2, 1, 2] none docRow [10, 20, 30]
    (by decide) (by decide) (by decide) (by decide)

/-! ## Claim C7: failures leave a terminal error status

The invariant: once a pipeline's initial status write has run, the status
row for the pipeline's key stays present through every later step, so the
catch-block's `updateStatus` cannot itself fail and the recorded error row
is observable in the final state. -/

/-- The status row for `k` is present in the `pdf_processing_status` table. -/
def PdfHas (k : String) (s : St) : Prop := (tblGet s.pdfStatus k).isSome = true

/-- The status row for `k` is present in the `image_processing_status` table. -/
def ImgHas (k : String) (s : St) : Prop := (tblGet s.imgStatus k).isSome = true

/-- `x` preserves the state predicate `P` whatever its outcome. -/
def M.Keeps {α : Type} (P : St → Prop) (x : M α) : Prop :=
  ∀ s, P s → P ((x s).2)

theorem M.Keeps.bind {α β : Type} {P : St → Prop} {x : M α} {f : α → M β}
    (hx : M.Keeps P x) (hf : ∀ a, M.Keeps P (f a)) : M.Keeps P (x >>= f) := by
  intro s h
  have h1 := hx s h
  show P ((M.bind x f s).2)
  unfold M.bind
  rcases hx0 : x s with ⟨r, s1⟩
  rw [hx0] at h1
  cases r with
  | ok a => exact hf a s1 h1
  | error e => exact h1

theorem keeps_of_pdfStatus_eq {α : Type} {x : M α}
    (hx : ∀ s, ((x s).2).pdfStatus = s.pdfStatus) (k : String) :
    M.Keeps (PdfHas k) x := by
  intro s h
  unfold PdfHas
  rw [hx s]
  exact h

theorem keeps_of_imgStatus_eq {α : Type} {x : M α}
    (hx : ∀ s, ((x s).2).imgStatus = s.imgStatus) (k : String) :
    M.Keeps (ImgHas k) x := by
  intro s h
  unfold ImgHas
  rw [hx s]
  exact h

theorem statusTables_getFile (k' : String) (s : St) :
    ((getFile k' s).2).pdfStatus = s.pdfStatus ∧
    ((getFile k' s).2).imgStatus = s.imgStatus := by
  simp only [getFile, monadM, M.bind, M.pure, getSt, setSt, M.throw]
  cases hf : findFile s k' with
  | none => exact ⟨rfl, rfl⟩
  | some row =>
    dsimp only
    by_cases hex : fileExists s row.filePath = true
    · rw [if_pos hex]
      exact ⟨rfl, rfl⟩
    · rw [if_neg hex]
      exact ⟨rfl, rfl⟩

theorem statusTables_readPdf (p : String) (s : St) :
    ((readPdf p s).2).pdfStatus = s.pdfStatus ∧
    ((readPdf p s).2).imgStatus = s.imgStatus := by
  simp only [readPdf, monadM, M.bind, M.pure, getSt, M.throw]
  cases diskGet s.disk p with
  | none => exact ⟨rfl, rfl⟩
  | some c => exact ⟨rfl, rfl⟩

theorem statusTables_storeFile (key oname fname fpath : String) (size : Nat)
    (mime : String) (s : St) :
    ((storeFile key oname fname fpath size mime s).2).pdfStatus = s.pdfStatus ∧
    ((storeFile key oname fname fpath size mime s).2).imgStatus = s.imgStatus := by
  simp only [storeFile, monadM, M.bind, M.pure, getNow, getSt, setSt, M.throw]
  by_cases hc : (findFile { s with now := s.now + 1 } key).isSome = true
  · rw [if_pos hc]
    exact ⟨rfl, rfl⟩
  · rw [if_neg hc]
    exact ⟨rfl, rfl⟩

theorem statusTables_storeImage (key : String) (image : StoredImage) (s : St) :
    ((storeImage key image s).2).pdfStatus = s.pdfStatus ∧
    ((storeImage key image s).2).imgStatus = s.imgStatus := by
  simp only [storeImage, monadM, M.bind, M.pure, getSt, setSt, M.throw]
  by_cases hc : (findImage s key).isSome = true
  · rw [if_pos hc]
    exact ⟨rfl, rfl⟩
  · rw [if_neg hc]
    exact ⟨rfl, rfl⟩

theorem pdfHas_updateProcessingStatus (k : String) (u : StatusPatch) :
    M.Keeps (PdfHas k) (updateProcessingStatus k u) := by
  intro s h
  simp only [updateProcessingStatus, updateStatus, getStatus, setStatus, modifySt, monadM,
    M.bind, M.pure, getSt, M.throw, getTbl, setTbl]
  cases ht : tblGet s.pdfStatus k with
  | none => exact h
  | some cur => exact tblGet_tblUpsert_isSome _ _ _

theorem imgHas_updateImageProcessingStatus (k : String) (u : StatusPatch) :
    M.Keeps (ImgHas k) (updateImageProcessingStatus k u) := by
  intro s h
  simp only [updateImageProcessingStatus, updateStatus, getStatus, setStatus, modifySt,
    monadM, M.bind, M.pure, getSt, M.throw, getTbl, setTbl]
  cases ht : tblGet s.imgStatus k with
  | none => exact h
  | some cur => exact tblGet_tblUpsert_isSome _ _ _

theorem keeps_pdf_truncationAfterStatus (k : String) (req : TruncationRequest) :
    M.Keeps (PdfHas k) (truncationAfterStatus k req) := by
  unfold truncationAfterStatus
  apply M.Keeps.bind (keeps_of_pdfStatus_eq (fun s => (statusTables_getFile k s).1) k)
  intro originalFile
  apply M.Keeps.bind
    (keeps_of_pdfStatus_eq (fun s => (statusTables_readPdf originalFile.filePath s).1) k)
  intro pdfDoc
  apply M.Keeps.bind (keeps_of_pdfStatus_eq (fun s => rfl) k)
  intro pagesToExtract
  apply M.Keeps.bind (pdfHas_updateProcessingStatus k _)
  intro _u1
  apply M.Keeps.bind (keeps_of_pdfStatus_eq (fun s => rfl) k)
  intro newPdfDoc
  apply M.Keeps.bind (pdfHas_updateProcessingStatus k _)
  intro _u2
  apply M.Keeps.bind (keeps_of_pdfStatus_eq (fun s => rfl) k)
  intro truncatedKey
  apply M.Keeps.bind (keeps_of_pdfStatus_eq (fun s => rfl) k)
  intro _u3
  apply M.Keeps.bind
    (keeps_of_pdfStatus_eq (fun s => (statusTables_storeFile truncatedKey
      (getTruncatedFileName originalFile.originalName)
      (truncatedKey ++ "_" ++ getTruncatedFileName originalFile.originalName)
      (getProcessedPath (truncatedKey ++ "_" ++ getTruncatedFileName originalFile.originalName))
      newPdfDoc.length "application/pdf" s).1) k)
  intro _u4
  apply M.Keeps.bind (keeps_of_pdfStatus_eq (fun s => rfl) k)
  intro t1
  apply M.Keeps.bind (pdfHas_updateProcessingStatus k _)
  intro _u5
  exact fun s h => h

theorem truncationTry_status (k : String) (req : TruncationRequest) (s : St) :
    PdfHas k ((processPdfTruncationTry k req s).2) :=
  keeps_pdf_truncationAfterStatus k req
    { s with now := s.now + 1
             pdfStatus := tblUpsert s.pdfStatus k
               { status := .processing, progress := some 0, error := none
                 createdAt := s.now, completedAt := none } }
    (tblGet_tblUpsert_isSome _ _ _)

theorem truncationCatch_spec (k : String) (e : Err) (s : St) (h : PdfHas k s) :
    (processPdfTruncationCatch k e s).1 = .error e ∧
    ∃ r, tblGet ((processPdfTruncationCatch k e s).2).pdfStatus k = some r ∧
      r.status = .error ∧ r.error = some e.message ∧ r.completedAt.isSome = true := by
  obtain ⟨cur, hcur⟩ := Option.isSome_iff_exists.mp h
  simp only [processPdfTruncationCatch, monadM, M.bind, M.pure, getNow,
    updateProcessingStatus, updateStatus, getStatus, setStatus, modifySt, getSt,
    getTbl, setTbl, M.throw, hcur, mergeStatus, optOver, tblGet_tblUpsert_self]
  exact ⟨trivial, _, rfl, rfl, rfl, rfl⟩

theorem imgStatus_convertPage (render : RenderCap) (k : String) (src : List Nat)
    (req : ImageConversionRequest) (dir : String) (i : Int) (s : St) :
    ((convertPage render k src req dir i s).2).imgStatus = s.imgStatus := by
  simp only [convertPage, monadM, M.bind, M.pure, generateKey, modifySt, getNow,
    getSt, setSt, M.throw]
  cases hr : render src (i + 1) (req.format.getD "png") (scalePageToOf req.scale) with
  | error msg => rfl
  | ok bytes =>
    dsimp only
    simp only [monadM, M.bind, M.pure, modifySt, getNow, getSt, setSt, M.throw]
    split
    · rename_i a s3 heq
      have h2 := congrArg (fun p => p.2.imgStatus) heq
      dsimp only at h2
      rw [(statusTables_storeImage _ _ _).2] at h2
      exact h2.symm
    · rename_i e s3 heq
      have h2 := congrArg (fun p => p.2.imgStatus) heq
      dsimp only at h2
      rw [(statusTables_storeImage _ _ _).2] at h2
      exact h2.symm

theorem imgStatus_mapM_loop (render : RenderCap) (k : String) (src : List Nat)
    (req : ImageConversionRequest) (dir : String) :
    ∀ (l : List Int) (acc : List String) (s : St),
      ((List.mapM.loop (convertPage render k src req dir) l acc s).2).imgStatus =
        s.imgStatus := by
  intro l
  induction l with
  | nil => intro acc s; rfl
  | cons a t ih =>
    intro acc s
    show ((M.bind (convertPage render k src req dir a)
      (fun b => List.mapM.loop (convertPage render k src req dir) t (b :: acc)) s).2).imgStatus
        = s.imgStatus
    unfold M.bind
    rcases hc : convertPage render k src req dir a s with ⟨r, s1⟩
    have h1 : s1.imgStatus = s.imgStatus := by
      have := imgStatus_convertPage render k src req dir a s
      rw [hc] at this
      exact this
    cases r with
    | ok b => exact (ih (b :: acc) s1).trans h1
    | error e => exact h1

theorem imgStatus_mapM (render : RenderCap) (k : String) (src : List Nat)
    (req : ImageConversionRequest) (dir : String) (l : List Int) (s : St) :
    ((l.mapM (convertPage render k src req dir) s).2).imgStatus = s.imgStatus :=
  imgStatus_mapM_loop render k src req dir l [] s

theorem keeps_img_imagesAfterStatus (render : RenderCap) (k : String)
    (req : ImageConversionRequest) :
    M.Keeps (ImgHas k) (imagesAfterStatus render k req) := by
  unfold imagesAfterStatus
  apply M.Keeps.bind (keeps_of_imgStatus_eq (fun s => (statusTables_getFile k s).2) k)
  intro originalFile
  apply M.Keeps.bind
    (keeps_of_imgStatus_eq (fun s => (statusTables_readPdf originalFile.filePath s).2) k)
  intro pdfDoc
  apply M.Keeps.bind (keeps_of_imgStatus_eq (fun s => rfl) k)
  intro pagesToConvert
  apply M.Keeps.bind (imgHas_updateImageProcessingStatus k _)
  intro _u1
  apply M.Keeps.bind (imgHas_updateImageProcessingStatus k _)
  intro _u2
  apply M.Keeps.bind
    (keeps_of_imgStatus_eq (imgStatus_mapM render k pdfDoc req imagesDirPath pagesToConvert) k)
  intro imageKeys
  apply M.Keeps.bind (keeps_of_imgStatus_eq (fun s => rfl) k)
  intro t1
  apply M.Keeps.bind (imgHas_updateImageProcessingStatus k _)
  intro _u3
  exact fun s h => h

theorem imagesTry_status (render : RenderCap) (k : String)
    (req : ImageConversionRequest) (s : St) :
    ImgHas k ((processPdfToImagesTry render k req s).2) :=
  keeps_img_imagesAfterStatus render k req
    { s with now := s.now + 1
             imgStatus := tblUpsert s.imgStatus k
               { status := .processing, progress := some 0, error := none
                 createdAt := s.now, completedAt := none } }
    (tblGet_tblUpsert_isSome _ _ _)

theorem imagesCatch_spec (k : String) (e : Err) (s : St) (h : ImgHas k s) :
    (processPdfToImagesCatch k e s).1 = .error e ∧
    ∃ r, tblGet ((processPdfToImagesCatch k e s).2).imgStatus k = some r ∧
      r.status = .error ∧ r.error = some e.message ∧ r.completedAt.isSome = true := by
  obtain ⟨cur, hcur⟩ := Option.isSome_iff_exists.mp h
  simp only [processPdfToImagesCatch, monadM, M.bind, M.pure, getNow,
    updateImageProcessingStatus, updateStatus, getStatus, setStatus, modifySt, getSt,
    getTbl, setTbl, M.throw, hcur, mergeStatus, optOver, tblGet_tblUpsert_self]
  exact ⟨trivial, _, rfl, rfl, rfl, rfl⟩

/-- C7.  For both pipelines: whenever a run for key `k` fails, the final
state's status row for `k` (in the pipeline's own status table) is set to
`error`, carries the failure's message and a completion timestamp, and the
failure itself is re-raised as the run's result. -/
theorem pipeline_error_sets_status :
    (∀ (k : String) (req : TruncationRequest) (s : St) (e : Err) (s' : St),
      processPdfTruncation k req s = (.error e, s') →
      ∃ r, tblGet s'.pdfStatus k = some r ∧ r.status = .error ∧
        r.error = some e.message ∧ r.completedAt.isSome = true) ∧
    (∀ (render : RenderCap) (k : String) (req : ImageConversionRequest) (s : St)
      (e : Err) (s' : St),
      processPdfToImages render k req s = (.error e, s') →
      ∃ r, tblGet s'.imgStatus k = some r ∧ r.status = .error ∧
        r.error = some e.message ∧ r.completedAt.isSome = true) := by
  constructor
  · intro k req s e s' hrun
    unfold processPdfTruncation M.attempt at hrun
    rcases htry : processPdfTruncationTry k req s with ⟨r1, s1⟩
    rw [htry] at hrun
    cases r1 with
    | ok a => exact absurd (congrArg Prod.fst hrun) (by simp)
    | error e0 =>
      have hhas : PdfHas k s1 := by
        have := truncationTry_status k req s
        rw [htry] at this
        exact this
      obtain ⟨hfst, r, hr, hst, herr, hcomp⟩ := truncationCatch_spec k e0 s1 hhas
      have he : e = e0 := by
        have := congrArg Prod.fst hrun
        rw [hfst] at this
        exact (Except.error.inj this.symm)
      have hs' : s' = (processPdfTruncationCatch k e0 s1).2 := congrArg Prod.snd hrun.symm
      subst he
      rw [hs']
      exact ⟨r, hr, hst, herr, hcomp⟩
  · intro render k req s e s' hrun
    unfold processPdfToImages M.attempt at hrun
    rcases htry : processPdfToImagesTry render k req s with ⟨r1, s1⟩
    rw [htry] at hrun
    cases r1 with
    | ok a => exact absurd (congrArg Prod.fst hrun) (by simp)
    | error e0 =>
      have hhas : ImgHas k s1 := by
        have := imagesTry_status render k req s
        rw [htry] at this
        exact this
      obtain ⟨hfst, r, hr, hst, herr, hcomp⟩ := imagesCatch_spec k e0 s1 hhas
      have he : e = e0 := by
        have := congrArg Prod.fst hrun
        rw [hfst] at this
        exact (Except.error.inj this.symm)
      have hs' : s' = (processPdfToImagesCatch k e0 s1).2 := congrArg Prod.snd hrun.symm
      subst he
      rw [hs']
      exact ⟨r, hr, hst, herr, hcomp⟩

/-- A rendering capability that fails on every page, for the witness. -/
def renderFail : RenderCap := fun _ _ _ _ => .error "render failed"

/-- Witness for C7: a truncation run failing at page resolution and an
image-conversion run failing at the first page render both leave an `error`
status row carrying the failure's message. -/
theorem pipeline_error_sets_status_witness :
    Option.map (fun r => r.status)
        (tblGet ((processPdfTruncation "d" { pages := none, pageRange := none }
          stNoStatus).2).pdfStatus "d") =
      some PStatus.error ∧
    Option.map (fun r => r.error)
        (tblGet ((processPdfTruncation "d" { pages := none, pageRange := none }
          stNoStatus).2).pdfStatus "d") =
      some (some "Either pages or pageRange must be specified") ∧
    Option.map (fun r => r.status)
        (tblGet ((processPdfToImages renderFail "d" {} stNoStatus).2).imgStatus "d") =
      some PStatus.error ∧
    Option.map (fun r => r.error)
        (tblGet ((processPdfToImages renderFail "d" {} stNoStatus).2).imgStatus "d") =
      some (some "Failed to convert page 1 to image") := by
  have h1 : (processPdfTruncation "d" { pages := none, pageRange := none } stNoStatus).1 =
      .error (Err.validation "Either pages or pageRange must be specified") := by decide
  have hrun1 : processPdfTruncation "d" { pages := none, pageRange := none } stNoStatus =
      (.error (Err.validation "Either pages or pageRange must be specified"),
        (processPdfTruncation "d" { pages := none, pageRange := none } stNoStatus).2) := by
    rw [← h1]
  obtain ⟨r1, hr1, hst1, herr1, _⟩ :=
    pipeline_error_sets_status.1 "d" { pages := none, pageRange := none } stNoStatus
      (Err.validation "Either pages or pageRange must be specified") _ hrun1
  have h2 : (processPdfToImages renderFail "d" {} stNoStatus).1 =
      .error (Err.processing "Failed to convert page 1 to image") := by decide
  have hrun2 : processPdfToImages renderFail "d" {} stNoStatus =
      (.error (Err.processing "Failed to convert page 1 to image"),
        (processPdfToImages renderFail "d" {} stNoStatus).2) := by
    rw [← h2]
  obtain ⟨r2, hr2, hst2, herr2, _⟩ :=
    pipeline_error_sets_status.2 renderFail "d" {} stNoStatus
      (Err.processing "Failed to convert page 1 to image") _ hrun2
  refine ⟨?_, ?_, ?_, ?_⟩
  · rw [hr1, Option.map_some', hst1]
  · rw [hr1, Option.map_some', herr1]
    rfl
  · rw [hr2, Option.map_some', hst2]
  · rw [hr2, Option.map_some', herr2]
    rfl

end PdfSvc
